import Mathlib

/-!
Verification of the Viomi vacuum driver (miio/viomivacuum.py) against its
natural-language specification.  The Python module is shallowly embedded:
each relevant class, enum and method is translated into an executable Lean
definition; Python exceptions are modelled by `Option`/`Except` results,
machine side effects (RPC calls, image-file writes, sleeps) by explicit
event logs threaded through the state.
-/

namespace Viomi

/-! String helpers

Executable embeddings of the Python string primitives the driver uses:
`str.split(sep)` (keeping empty fields), `", ".join(...)`, and substring
containment (used to state facts about error-message texts).  All operate
on `String.data` so they reduce inside the kernel.
-/

/-- Embedding of Python `str.split(sep)` on character lists: split at every
occurrence of `sep`, keeping empty fields (`"a__b" -> ["a", "", "b"]`,
`"" -> [""]`). -/
def splitChars (sep : Char) : List Char → List (List Char)
  | [] => [[]]
  | c :: rest =>
    if c == sep then [] :: splitChars sep rest
    else
      match splitChars sep rest with
      | [] => [[c]]
      | f :: fs => (c :: f) :: fs

/-- Embedding of Python `s.split(sep)` for a one-character separator. -/
def pySplit (s : String) (sep : Char) : List String :=
  (splitChars sep s.data).map (fun l => String.mk l)

/-- Embedding of Python `", ".join(l)` (defined for a nonempty or empty list;
`join` of `[]` is `""`). -/
def joinComma : List String → String
  | [] => ""
  | x :: xs => xs.foldl (fun acc y => acc ++ ", " ++ y) x

/-- Boolean test: `n` is a prefix of `h` (character lists). -/
def prefB : List Char → List Char → Bool
  | [], _ => true
  | _ :: _, [] => false
  | a :: as, b :: bs => a == b && prefB as bs

/-- Boolean test: `n` occurs as a contiguous substring of `h`. -/
def containsSub (n : List Char) : (h : List Char) → Bool
  | [] => prefB n []
  | c :: t => prefB n (c :: t) || containsSub n t

/-- String-level substring containment, via `containsSub` on the data. -/
def strHas (msg sub : String) : Bool :=
  containsSub sub.data msg.data

theorem prefB_iff (n h : List Char) : prefB n h = true ↔ ∃ s, h = n ++ s := by
  induction n generalizing h with
  | nil => simp [prefB]
  | cons a as ih =>
    cases h with
    | nil => simp [prefB]
    | cons b bs =>
      simp only [prefB, Bool.and_eq_true, beq_iff_eq, ih, List.cons_append,
        List.cons.injEq]
      constructor
      · rintro ⟨rfl, s, rfl⟩; exact ⟨s, rfl, rfl⟩
      · rintro ⟨s, rfl, rfl⟩; exact ⟨rfl, s, rfl⟩

theorem containsSub_iff (n h : List Char) :
    containsSub n h = true ↔ ∃ p s, h = p ++ n ++ s := by
  induction h with
  | nil =>
    simp only [containsSub, prefB_iff]
    constructor
    · rintro ⟨s, hs⟩
      exact ⟨[], s, by simpa using hs⟩
    · rintro ⟨p, s, hs⟩
      have hp : p = [] := by
        cases p with
        | nil => rfl
        | cons a as => simp at hs
      subst hp
      exact ⟨s, by simpa using hs⟩
  | cons c t ih =>
    simp only [containsSub, Bool.or_eq_true, prefB_iff, ih]
    constructor
    · rintro (⟨s, hs⟩ | ⟨p, s, hs⟩)
      · exact ⟨[], s, by simpa using hs⟩
      · exact ⟨c :: p, s, by simp [hs]⟩
    · rintro ⟨p, s, hs⟩
      cases p with
      | nil => exact Or.inl ⟨s, by simpa using hs⟩
      | cons a as =>
        simp only [List.cons_append, List.cons.injEq] at hs
        exact Or.inr ⟨as, s, by simp [hs.1, hs.2]⟩

theorem strHas_append (pre mid suf : String) :
    strHas (pre ++ mid ++ suf) mid = true := by
  have hdata : (pre ++ mid ++ suf).data = pre.data ++ mid.data ++ suf.data := by
    cases pre; cases mid; cases suf; rfl
  rw [strHas, hdata, containsSub_iff]
  exact ⟨pre.data, suf.data, rfl⟩

theorem strHas_of_append_right (a b sub : String) (h : strHas b sub = true) :
    strHas (a ++ b) sub = true := by
  rw [strHas, containsSub_iff] at h ⊢
  obtain ⟨p, s, hp⟩ := h
  have hdata : (a ++ b).data = a.data ++ b.data := by cases a; cases b; rfl
  exact ⟨a.data ++ p, s, by simp [hdata, hp]⟩

theorem strHas_of_append_left (a b sub : String) (h : strHas a sub = true) :
    strHas (a ++ b) sub = true := by
  rw [strHas, containsSub_iff] at h ⊢
  obtain ⟨p, s, hp⟩ := h
  have hdata : (a ++ b).data = a.data ++ b.data := by cases a; cases b; rfl
  exact ⟨p, s ++ b.data, by simp [hdata, hp]⟩

theorem strHas_self (x : String) : strHas x x = true := by
  rw [strHas, containsSub_iff]
  exact ⟨[], [], by simp⟩

theorem strHas_joinComma (l : List String) (x : String) (hx : x ∈ l) :
    strHas (joinComma l) x = true := by
  cases l with
  | nil => simp at hx
  | cons y ys =>
    rw [joinComma]
    have key : ∀ (zs : List String) (acc : String),
        (strHas acc x = true ∨ x ∈ zs) →
        strHas (zs.foldl (fun a b => a ++ ", " ++ b) acc) x = true := by
      intro zs
      induction zs with
      | nil =>
        intro acc h
        rcases h with h | h
        · simpa using h
        · simp at h
      | cons z zs ihz =>
        intro acc h
        rw [List.foldl_cons]
        apply ihz
        rcases h with h | h
        · exact Or.inl (strHas_of_append_left _ _ _ (strHas_of_append_left _ _ _ h))
        · rcases List.mem_cons.mp h with h | h
          · exact Or.inl (strHas_of_append_right _ _ _ (h ▸ strHas_self x))
          · exact Or.inr h
    rcases List.mem_cons.mp hx with h | hx
    · exact key ys y (Or.inl (h ▸ strHas_self x))
    · exact key ys y (Or.inr hx)

/-! Enum vocabulary (miio/viomivacuum.py, class definitions)

Each Python `Enum` becomes an inductive type together with a partial decode
function `...?` mapping the integer device code to the member; `none` models
the `ValueError` the Python `Enum` constructor raises on an unmapped code.
-/

inductive ViomiVacuumSpeed
  | Silent | Standard | Medium | Turbo
deriving DecidableEq, Repr

/-- Decode of `ViomiVacuumSpeed(n)`: values 0..3. -/
def viomiVacuumSpeed? (n : Int) : Option ViomiVacuumSpeed :=
  if n = 0 then some .Silent
  else if n = 1 then some .Standard
  else if n = 2 then some .Medium
  else if n = 3 then some .Turbo
  else none

inductive ViomiVacuumState
  | Unknown | IdleNotDocked | Idle | Idle2 | Cleaning | Returning | Docked
  | VacuumingAndMopping
deriving DecidableEq, Repr

/-- Decode of `ViomiVacuumState(n)`: values -1..6. -/
def viomiVacuumState? (n : Int) : Option ViomiVacuumState :=
  if n = -1 then some .Unknown
  else if n = 0 then some .IdleNotDocked
  else if n = 1 then some .Idle
  else if n = 2 then some .Idle2
  else if n = 3 then some .Cleaning
  else if n = 4 then some .Returning
  else if n = 5 then some .Docked
  else if n = 6 then some .VacuumingAndMopping
  else none

inductive ViomiMode
  | Vacuum | VacuumAndMop | Mop | CleanZone | CleanSpot
deriving DecidableEq, Repr

/-- Decode of `ViomiMode(n)`: values 0..4. -/
def viomiMode? (n : Int) : Option ViomiMode :=
  if n = 0 then some .Vacuum
  else if n = 1 then some .VacuumAndMop
  else if n = 2 then some .Mop
  else if n = 3 then some .CleanZone
  else if n = 4 then some .CleanSpot
  else none

inductive ViomiBinType
  | Vacuum | Water | VacuumAndWater | NoBin
deriving DecidableEq, Repr

/-- Decode of `ViomiBinType(n)`: values 1, 2, 3, 0. -/
def viomiBinType? (n : Int) : Option ViomiBinType :=
  if n = 1 then some .Vacuum
  else if n = 2 then some .Water
  else if n = 3 then some .VacuumAndWater
  else if n = 0 then some .NoBin
  else none

inductive ViomiWaterGrade
  | Low | Medium | High
deriving DecidableEq, Repr

/-- Decode of `ViomiWaterGrade(n)`: values 11, 12, 13. -/
def viomiWaterGrade? (n : Int) : Option ViomiWaterGrade :=
  if n = 11 then some .Low
  else if n = 12 then some .Medium
  else if n = 13 then some .High
  else none

inductive ViomiRoutePattern
  | S | Y
deriving DecidableEq, Repr

/-- Decode of `ViomiRoutePattern(n)`: values 0, 1. -/
def viomiRoutePattern? (n : Int) : Option ViomiRoutePattern :=
  if n = 0 then some .S
  else if n = 1 then some .Y
  else none

inductive ViomiVoiceState
  | Off | On
deriving DecidableEq, Repr

/-- Decode of `ViomiVoiceState(n)`: values 0, 5. -/
def viomiVoiceState? (n : Int) : Option ViomiVoiceState :=
  if n = 0 then some .Off
  else if n = 5 then some .On
  else none

inductive ViomiEdgeState
  | Off | Unknown | On
deriving DecidableEq, Repr

/-- Decode of `ViomiEdgeState(n)`: values 0, 1, 2. -/
def viomiEdgeState? (n : Int) : Option ViomiEdgeState :=
  if n = 0 then some .Off
  else if n = 1 then some .Unknown
  else if n = 2 then some .On
  else none

/-- The `ERROR_CODES` table (integer code to human-readable string). -/
def ERROR_CODES : List (Int × String) :=
  [(0, "Sleeping and not charging"),
   (500, "Radar timed out"),
   (501, "Wheels stuck"),
   (502, "Low battery"),
   (503, "Dust bin missing"),
   (508, "Uneven ground"),
   (509, "Cliff sensor error"),
   (510, "Collision sensor error"),
   (511, "Could not return to dock"),
   (512, "Could not return to dock"),
   (513, "Could not navigate"),
   (514, "Vacuum stuck"),
   (515, "Charging error"),
   (516, "Mop temperature error"),
   (521, "Water tank is not installed"),
   (522, "Mop is not installed"),
   (525, "Insufficient water in water tank"),
   (527, "Remove mop"),
   (528, "Dust bin missing"),
   (529, "Mop and water tank missing"),
   (530, "Mop and water tank missing"),
   (531, "Water tank is not installed"),
   (2101, "Unsufficient battery, continuing cleaning after recharge"),
   (2103, "Charging"),
   (2105, "Fully charged")]

/-- Lookup in an association list, as Python `dict.get`. -/
def dictGet (d : List (Int × String)) (k : Int) : Option String :=
  match d with
  | [] => none
  | (k2, v) :: rest => if k2 = k then some v else dictGet rest k

/-! Status decoder (`ViomiVacuumStatus`)

The raw snapshot is the `defaultdict(lambda: None, ...)` built in
`ViomiVacuum.status`: a total map from property names to `Option Int`
(`none` models the `None` default for an absent key).  Only the
integer-valued properties the claims touch are modelled.  An accessor whose
Python body can raise an uncaught exception returns `Option`; `none` is the
raised fault.
-/

/-- Snapshot of raw properties: absent keys resolve to `none` (the
`defaultdict` returning `None`). -/
def Snapshot := String → Option Int

/-- Snapshot holding a single property `k` with integer value `n`. -/
def snapOf (k : String) (n : Int) : Snapshot :=
  fun k2 => if k2 = k then some n else none

/-- Accessor `state`: `ViomiVacuumState(data["run_state"])` guarded by
`try/except ValueError` returning `ViomiVacuumState.Unknown` (the raised
`ValueError`, including the one for an absent key decoding `None`, is
caught). -/
def state (d : Snapshot) : ViomiVacuumState :=
  match d ("run_state") with
  | none => ViomiVacuumState.Unknown
  | some n =>
    match viomiVacuumState? n with
    | some s => s
    | none => ViomiVacuumState.Unknown

/-- Accessor `fanspeed`: `ViomiVacuumSpeed(data["suction_grade"])`, no
guard; `none` models the uncaught `ValueError`. -/
def fanspeed (d : Snapshot) : Option ViomiVacuumSpeed :=
  (d ("suction_grade")).bind viomiVacuumSpeed?

/-- Accessor `water_grade`: `ViomiWaterGrade(data["water_grade"])`, no guard. -/
def water_grade (d : Snapshot) : Option ViomiWaterGrade :=
  (d ("water_grade")).bind viomiWaterGrade?

/-- Accessor `bin_type`: `ViomiBinType(data["box_type"])`, no guard. -/
def bin_type (d : Snapshot) : Option ViomiBinType :=
  (d ("box_type")).bind viomiBinType?

/-- Accessor `mop_mode`: `ViomiMode(data["is_mop"])`, no guard. -/
def mop_mode (d : Snapshot) : Option ViomiMode :=
  (d ("is_mop")).bind viomiMode?

/-- Accessor `mop_route`: `ViomiRoutePattern(data["mop_route"])`, no guard. -/
def mop_route (d : Snapshot) : Option ViomiRoutePattern :=
  (d ("mop_route")).bind viomiRoutePattern?

/-- Accessor `voice_state`: `ViomiVoiceState(data["v_state"])`, no guard. -/
def voice_state (d : Snapshot) : Option ViomiVoiceState :=
  (d ("v_state")).bind viomiVoiceState?

/-- Accessor `edge_state`: `ViomiEdgeState(data["mode"])`, no guard. -/
def edge_state (d : Snapshot) : Option ViomiEdgeState :=
  (d ("mode")).bind viomiEdgeState?

/-- Accessor `error_code`: raw `data["err_state"]`. -/
def error_code (d : Snapshot) : Option Int :=
  d ("err_state")

/-- Accessor `error`: returns `None` when the code is `None`, otherwise
`ERROR_CODES.get(code, f"Unknown error N")`.  The outer `none` is the
legitimate Python `None` return, not a fault. -/
def error (d : Snapshot) : Option String :=
  match error_code d with
  | none => none
  | some c => some ((dictGet ERROR_CODES c).getD ("Unknown error " ++ toString c))

/-! Consumables (`ViomiConsumableStatus`)

The Python class subclasses `ConsumableStatus` (miio/vacuumcontainers.py,
not part of the sources here) but overrides `__init__` without calling the
parent initializer.  Durations are modelled in seconds (`timedelta` and
`pretty_seconds` both reduce to second counts).
-/

/-- Modelled from the spec: `pretty_seconds` (miio/utils.py is not among the
sources) converts a raw seconds counter to a human-interval type; modelled
as the identity on second counts. -/
def pretty_seconds (s : Int) : Int := s

/-- Attributes set by `ViomiConsumableStatus.__init__`: `data` (hours
converted to seconds) and the four rated totals. -/
structure ViomiConsumableStatus where
  data : List Int
  side_brush_total : Int
  main_brush_total : Int
  filter_total : Int
  mop_total : Int
deriving DecidableEq, Repr

/-- Constructor `ViomiConsumableStatus(data)`: scales each entry by 3600
and fixes the rated totals (`timedelta(hours=h)` as seconds). -/
def mkConsumableStatus (raw : List Int) : ViomiConsumableStatus :=
  { data := raw.map (fun d => d * 60 * 60)
    side_brush_total := 180 * 60 * 60
    main_brush_total := 360 * 60 * 60
    filter_total := 180 * 60 * 60
    mop_total := 180 * 60 * 60 }

/-- Accessor `main_brush`: `pretty_seconds(self.data[0])`; `none` models the
`IndexError` on a too-short list. -/
def ViomiConsumableStatus.main_brush (st : ViomiConsumableStatus) : Option Int :=
  (st.data[0]?).map pretty_seconds

/-- Accessor `main_brush_left`: `self.main_brush_total - self.main_brush`. -/
def ViomiConsumableStatus.main_brush_left (st : ViomiConsumableStatus) : Option Int :=
  st.main_brush.map (fun u => st.main_brush_total - u)

/-- Accessor `side_brush`: `pretty_seconds(self.data[1])`. -/
def ViomiConsumableStatus.side_brush (st : ViomiConsumableStatus) : Option Int :=
  (st.data[1]?).map pretty_seconds

/-- Accessor `side_brush_left`: `self.side_brush_total - self.side_brush`. -/
def ViomiConsumableStatus.side_brush_left (st : ViomiConsumableStatus) : Option Int :=
  st.side_brush.map (fun u => st.side_brush_total - u)

/-- Accessor `filter`: `pretty_seconds(self.data[2])`. -/
def ViomiConsumableStatus.filter (st : ViomiConsumableStatus) : Option Int :=
  (st.data[2]?).map pretty_seconds

/-- Accessor `filter_left`: `self.filter_total - self.filter`. -/
def ViomiConsumableStatus.filter_left (st : ViomiConsumableStatus) : Option Int :=
  st.filter.map (fun u => st.filter_total - u)

/-- Accessor `mop`: `pretty_seconds(self.data[3])`. -/
def ViomiConsumableStatus.mop (st : ViomiConsumableStatus) : Option Int :=
  (st.data[3]?).map pretty_seconds

/-- Modelled from the spec: the parent class `ConsumableStatus`
(miio/vacuumcontainers.py, absent from the sources) sets
`sensor_dirty_total` only inside its own initializer, which
`ViomiConsumableStatus.__init__` never invokes; the attribute is therefore
absent on every `ViomiConsumableStatus` instance and reading it raises
`AttributeError` (`none`). -/
def ViomiConsumableStatus.sensor_dirty_total (_ : ViomiConsumableStatus) : Option Int :=
  none

/-- Modelled from the spec: the parent property `sensor_dirty` reads
`self.data["sensor_dirty_time"]`; here `data` is a list, so the string
index raises `TypeError` (`none`). -/
def ViomiConsumableStatus.sensor_dirty (_ : ViomiConsumableStatus) : Option Int :=
  none

/-- Accessor `mop_left`: the source computes
`self.sensor_dirty_total - self.sensor_dirty` (not `mop_total - mop`);
evaluating `self.sensor_dirty_total` faults, so the whole property faults. -/
def ViomiConsumableStatus.mop_left (st : ViomiConsumableStatus) : Option Int :=
  match st.sensor_dirty_total, st.sensor_dirty with
  | some tot, some used => some (tot - used)
  | _, _ => none

/-! Position points (`ViomiPositionPoint`)

Device coordinates are integers; `plan_multiplicator` is the caller-supplied
scale factor (an exact integer `image_size / 10 = 1000` in
`follow_position`).
-/

/-- Fields of `ViomiPositionPoint.__init__`: raw x, raw y, heading `phi`,
timestamp `update`, and the scale factor. -/
structure ViomiPositionPoint where
  pos_x0 : Int
  pos_y0 : Int
  phi : Int
  update : Int
  plan_multiplicator : Int
deriving DecidableEq, Repr

/-- Property `pos_x`: raw x times the multiplicator. -/
def pos_x (p : ViomiPositionPoint) : Int :=
  p.pos_x0 * p.plan_multiplicator

/-- Property `pos_y`: raw y times the multiplicator. -/
def pos_y (p : ViomiPositionPoint) : Int :=
  p.pos_y0 * p.plan_multiplicator

/-- Method `image_pos_x(offset, img_center)`: `pos_x - offset + img_center`. -/
def image_pos_x (p : ViomiPositionPoint) (offset center : Int) : Int :=
  pos_x p - offset + center

/-- Method `image_pos_y(offset, img_center)`: `pos_y - offset + img_center`. -/
def image_pos_y (p : ViomiPositionPoint) (offset center : Int) : Int :=
  pos_y p - offset + center

/-- Method `__eq__`: compares scaled x, scaled y and heading; the `update`
timestamp is not compared. -/
def pointEq (a b : ViomiPositionPoint) : Bool :=
  pos_x a == pos_x b && pos_y a == pos_y b && a.phi == b.phi

/-- Python `position in position_history`: membership by `__eq__`. -/
def memEq (p : ViomiPositionPoint) (l : List ViomiPositionPoint) : Bool :=
  l.any (fun e => pointEq p e)

theorem beqIntComm (x y : Int) : (x == y) = (y == x) := by
  by_cases h : x = y
  · subst h; rfl
  · rw [beq_eq_false_iff_ne.mpr h, beq_eq_false_iff_ne.mpr (Ne.symm h)]

theorem pointEq_symm (a b : ViomiPositionPoint) : pointEq a b = pointEq b a := by
  simp only [pointEq, beqIntComm]

/-- Method `get_positions`: groups the raw reply four by four (x, y, phi,
update), dropping a trailing partial group, and builds the points with the
given multiplicator. -/
def get_positions (mult : Int) : List Int → List ViomiPositionPoint
  | a :: b :: c :: d :: rest =>
    ⟨a, b, c, d, mult⟩ :: get_positions mult rest
  | _ => []

/-! `follow_position` loop

Side effects are made explicit: drawn segments (`canvas`), image-file
writes (`saves`, one `ImgExpr` per overwrite of the output path), and
sleeps (seconds appended to `sleeps`).  The device is a script of poll
results: each `get_curpos` round-trip consumes one `Poll`; `Poll.err`
models a transport exception raised by the fetch.
-/

/-- One drawn line segment: `draw.line([start_point, end_point], ...)`. -/
abbrev Seg := ((Int × Int) × (Int × Int))

/-- Crop box `(min_x, min_y, max_x, max_y)` handed to `image.crop`. -/
structure Rect where
  minX : Int
  minY : Int
  maxX : Int
  maxY : Int
deriving DecidableEq, Repr

/-- Symbolic image value: the blank canvas with its drawn segments, a crop
of an image to a box, or a top-bottom flip (`Image.FLIP_TOP_BOTTOM`). -/
inductive ImgExpr
  | canvas (segs : List Seg)
  | crop (img : ImgExpr) (box : Rect)
  | flipTB (img : ImgExpr)
deriving DecidableEq, Repr

/-- Python `min` over a list (`none` models the `ValueError` on `[]`). -/
def pymin : List Int → Option Int
  | [] => none
  | x :: xs => some (xs.foldl min x)

/-- Python `max` over a list (`none` models the `ValueError` on `[]`). -/
def pymax : List Int → Option Int
  | [] => none
  | x :: xs => some (xs.foldl max x)

/-- Fixed constants of `follow_position`. -/
def image_size : Int := 10000

/-- Crop margin, `image_margin = 20`. -/
def image_margin : Int := 20

/-- `plan_multiplicator = image_size / 10` (exact integer division). -/
def fpMult : Int := image_size / 10

/-- `img_center = image_size / 2` (exact integer division). -/
def img_center : Int := image_size / 2

/-- Mutable state of the `follow_position` run: the origin offsets (set when
the first point is retained; the initial zeros are never read before that),
the retained `position_history`, the drawn segments, the log of image-file
writes, and the log of sleeps. -/
structure RunSt where
  offX : Int
  offY : Int
  hist : List ViomiPositionPoint
  canvas : List Seg
  saves : List ImgExpr
  sleeps : List Int
deriving DecidableEq, Repr

/-- State on entry to `follow_position`. -/
def initSt : RunSt :=
  { offX := 0, offY := 0, hist := [], canvas := [], saves := [], sleeps := [] }

/-- Crop box computed after a point is appended: min/max of the transformed
coordinates over the whole `position_history`, extended by `image_margin`.
The history is nonempty there, so the `getD 0` defaults are never used. -/
def cropRect (offX offY : Int) (hist : List ViomiPositionPoint) : Rect :=
  { minX := (pymin (hist.map (fun p => image_pos_x p offX img_center))).getD 0 - image_margin
    minY := (pymin (hist.map (fun p => image_pos_y p offY img_center))).getD 0 - image_margin
    maxX := (pymax (hist.map (fun p => image_pos_x p offX img_center))).getD 0 + image_margin
    maxY := (pymax (hist.map (fun p => image_pos_y p offY img_center))).getD 0 + image_margin }

/-- The image written to the output path: crop of the current canvas to the
box, then the vertical flip. -/
def mkSave (offX offY : Int) (hist : List ViomiPositionPoint) (segs : List Seg) : ImgExpr :=
  ImgExpr.flipTB (ImgExpr.crop (ImgExpr.canvas segs) (cropRect offX offY hist))

/-- Body of `for position in positions` in the loop: skip a duplicate of any
retained point; make the first point the origin; otherwise (the point is
truthy and differs from the last retained one) draw the segment, retain the
point, crop and write the image. -/
def step (st : RunSt) (position : ViomiPositionPoint) : RunSt :=
  if memEq position st.hist then st
  else if st.hist.isEmpty then
    { st with offX := pos_x position, offY := pos_y position,
              hist := st.hist ++ [position] }
  else
    match st.hist.getLast? with
    | none => st
    | some lastp =>
      if pointEq position lastp then st
      else
        let startPt := (image_pos_x lastp st.offX img_center,
                        image_pos_y lastp st.offY img_center)
        let endPt := (image_pos_x position st.offX img_center,
                      image_pos_y position st.offY img_center)
        let canvas2 := st.canvas ++ [(startPt, endPt)]
        let hist2 := st.hist ++ [position]
        { st with hist := hist2, canvas := canvas2,
                  saves := st.saves ++ [mkSave st.offX st.offY hist2 canvas2] }

/-- The whole `for position in positions` pass over one poll result. -/
def processPositions (st : RunSt) (positions : List ViomiPositionPoint) : RunSt :=
  positions.foldl step st

/-- One reply of the device to `get_curpos`: a raw value list, or a raised
transport error. -/
inductive Poll
  | err
  | ok (raw : List Int)
deriving DecidableEq, Repr

/-- Result of a `follow_position` run over a finite poll script. -/
inductive RunResult
  | raised
  | done (remaining : List Poll) (st : RunSt)
  | outOfPolls (st : RunSt)
deriving DecidableEq, Repr

/-- The `while no_pos_found < 5` loop.  Each iteration first replays the
drawing pass over the freshly fetched `positions`, then fetches again:
a raised fetch (`Poll.err`) sleeps `wait_time * 4`, empties the positions
buffer and `continue`s (the counter is untouched); an empty fetch bumps the
counter and sleeps twice (`wait_time` in the branch plus the trailing
`wait_time`); a nonempty fetch resets the counter and sleeps once.
`RunResult.outOfPolls` marks exhaustion of the finite script while the loop
is still running. -/
def followLoop : Nat → RunSt → List ViomiPositionPoint → List Poll → RunResult
  | n, st, positions, [] =>
    if 5 ≤ n then RunResult.done [] st
    else RunResult.outOfPolls (processPositions st positions)
  | n, st, positions, poll :: rest =>
    if 5 ≤ n then RunResult.done (poll :: rest) st
    else
      let st1 := processPositions st positions
      match poll with
      | Poll.err =>
        followLoop n { st1 with sleeps := st1.sleeps ++ [4] } [] rest
      | Poll.ok raw =>
        let ps := get_positions fpMult raw
        if ps.isEmpty then
          followLoop (n + 1) { st1 with sleeps := st1.sleeps ++ [1, 1] } ps rest
        else
          followLoop 0 { st1 with sleeps := st1.sleeps ++ [1] } ps rest

/-- `follow_position`: fetch once (a raised fetch propagates); return at
once when the first fetch is empty; otherwise run the loop with the counter
at zero. -/
def follow_position : List Poll → RunResult
  | [] => RunResult.outOfPolls initSt
  | Poll.err :: _ => RunResult.raised
  | Poll.ok raw :: rest =>
    let positions := get_positions fpMult raw
    if positions.isEmpty then RunResult.done rest initSt
    else followLoop 0 initSt positions rest

/-! Command façade (`ViomiVacuum`)

Each operation is embedded as a pure function from the session state and
the device's replies to the new session state, the list of RPC calls it
issues, and its result.  Raised `ViomiVacuumException`s and other Python
faults are `Fault` values.
-/

/-- One positional or keyed RPC argument. -/
inductive Arg
  | i (n : Int)
  | s (v : String)
deriving DecidableEq, Repr

/-- RPC payload: a positional list or a keyed map. -/
inductive Payload
  | plist (args : List Arg)
  | pmap (kvs : List (String × Arg))
deriving DecidableEq, Repr

/-- One issued RPC call. -/
structure Rpc where
  method : String
  payload : Payload
deriving DecidableEq, Repr

/-- Raised Python exceptions. -/
inductive Fault
  | viomiError (msg : String)
  | indexError
  | typeError
deriving DecidableEq, Repr

/-- The session-scoped cache `_cache = {"edge_state": None, "rooms": {}}`. -/
structure SessionSt where
  edge_state : Option (List Int)
  rooms : List (String × Option String)
deriving DecidableEq, Repr

/-- Fresh session state. -/
def initSession : SessionSt :=
  { edge_state := none, rooms := [] }

/-- Python truthiness test `not self._cache["edge_state"]`: `None` and the
empty list are falsy. -/
def falsyList : Option (List Int) → Bool
  | none => true
  | some l => l.isEmpty

/-- The `self.get_properties(["mode"])` round trip reading the edge mode. -/
def getPropsModeRpc : Rpc :=
  ⟨"get_properties", Payload.plist [Arg.s ("mode")]⟩

/-- Marker for the `self.get_maps()` round trip (`send("get_map")`). -/
def getMapRpc : Rpc :=
  ⟨"get_map", Payload.plist []⟩

/-- Marker for the `send("get_ordertime", [])` round trip. -/
def getOrdertimeRpc : Rpc :=
  ⟨"get_ordertime", Payload.plist []⟩

/-- Operation `start`: unconditionally reads the edge mode, overwrites the
cache with the reply, and sends `set_mode_withroom` with the fresh edge
prefix plus `[1, 0]`. -/
def start (st : SessionSt) (edge_resp : List Int) : SessionSt × List Rpc :=
  ({ st with edge_state := some edge_resp },
   [getPropsModeRpc,
    ⟨"set_mode_withroom", Payload.plist (edge_resp.map Arg.i ++ [Arg.i 1, Arg.i 0])⟩])

/-- Operation `pause`: reads the edge mode only when the cached value is
falsy, then sends `set_mode` with the cached prefix plus `[2]`. -/
def pause (st : SessionSt) (edge_resp : List Int) : SessionSt × List Rpc :=
  if falsyList st.edge_state then
    ({ st with edge_state := some edge_resp },
     [getPropsModeRpc,
      ⟨"set_mode", Payload.plist (edge_resp.map Arg.i ++ [Arg.i 2])⟩])
  else
    (st, [⟨"set_mode", Payload.plist ((st.edge_state.getD []).map Arg.i ++ [Arg.i 2])⟩])

/-- Operation `stop`: like `pause` but appends `[0]`. -/
def stop (st : SessionSt) (edge_resp : List Int) : SessionSt × List Rpc :=
  if falsyList st.edge_state then
    ({ st with edge_state := some edge_resp },
     [getPropsModeRpc,
      ⟨"set_mode", Payload.plist (edge_resp.map Arg.i ++ [Arg.i 0])⟩])
  else
    (st, [⟨"set_mode", Payload.plist ((st.edge_state.getD []).map Arg.i ++ [Arg.i 0])⟩])

/-- Number of edge-mode reads (`get_properties(["mode"])`) in a call log. -/
def modeQueries (calls : List Rpc) : Nat :=
  (calls.filter (fun c => c.method == "get_properties")).length

/-! Map list operations -/

/-- One entry of the `get_maps` reply: `{name, id, cur}`. -/
structure MapEntry where
  name : String
  id : Int
  cur : Bool
deriving DecidableEq, Repr

/-- Operation `set_map`: fetch the map list, raise
`ViomiVacuumException("Map id N doesn't exists")` when the id is absent
(issuing no further call), else send `set_map [map_id]`. -/
def set_map (maps : List MapEntry) (map_id : Int) : List Rpc × Except Fault Unit :=
  if (maps.map MapEntry.id).contains map_id then
    ([getMapRpc, ⟨"set_map", Payload.plist [Arg.i map_id]⟩], Except.ok ())
  else
    ([getMapRpc],
     Except.error (Fault.viomiError ("Map id " ++ toString map_id ++ " doesn\x27t exists")))

/-- Operation `delete_map`: same guard, sends `del_map [map_id]`. -/
def delete_map (maps : List MapEntry) (map_id : Int) : List Rpc × Except Fault Unit :=
  if (maps.map MapEntry.id).contains map_id then
    ([getMapRpc, ⟨"del_map", Payload.plist [Arg.i map_id]⟩], Except.ok ())
  else
    ([getMapRpc],
     Except.error (Fault.viomiError ("Map id " ++ toString map_id ++ " doesn\x27t exists")))

/-- Operation `rename_map`: same guard, sends
`rename_map {"mapID": map_id, "name": map_name}`. -/
def rename_map (maps : List MapEntry) (map_id : Int) (map_name : String) :
    List Rpc × Except Fault Unit :=
  if (maps.map MapEntry.id).contains map_id then
    ([getMapRpc,
      ⟨"rename_map", Payload.pmap [("mapID", Arg.i map_id), ("name", Arg.s map_name)]⟩],
     Except.ok ())
  else
    ([getMapRpc],
     Except.error (Fault.viomiError ("Map id " ++ toString map_id ++ " doesn\x27t exists")))

/-! Room-table derivation (`get_rooms`) -/

/-- The qualifying test on one schedule string: split on underscores, then
`fields[1] == "0" and fields[3] == "0" and fields[4] == "0"` with Python
short-circuiting; a missing index raises `IndexError`. -/
def qualifies (raw : String) : Except Fault Bool :=
  let fields := pySplit raw '_'
  match fields[1]? with
  | none => Except.error Fault.indexError
  | some e =>
    if e ≠ "0" then Except.ok false
    else
      match fields[3]? with
      | none => Except.error Fault.indexError
      | some h =>
        if h ≠ "0" then Except.ok false
        else
          match fields[4]? with
          | none => Except.error Fault.indexError
          | some m => Except.ok (m == "0")

/-- Greedy two-at-a-time pairing of the tail fields, as
`dict(itertools.zip_longest(it, it, fillvalue=None))` pairs them:
`(id, name, id, name, ...)`, the last id paired with `None` when the tail
has odd length. -/
def pairUp : List String → List (String × Option String)
  | [] => []
  | [a] => [(a, none)]
  | a :: b :: rest => (a, some b) :: pairUp rest

/-- Python dict assignment: overwrite the value under an existing key,
else append the new pair. -/
def dictInsert (d : List (String × Option String)) (k : String) (v : Option String) :
    List (String × Option String) :=
  if (d.map Prod.fst).contains k then
    d.map (fun kv => if kv.1 == k then (k, v) else kv)
  else d ++ [(k, v)]

/-- Python `dict.update` with a list of pairs. -/
def dictUpdate (d kvs : List (String × Option String)) : List (String × Option String) :=
  kvs.foldl (fun acc kv => dictInsert acc kv.1 kv.2) d

/-- The schedule scan of `get_rooms`: accumulate `scheduled_found` and the
room pairs (`schedule[12:]`) of every qualifying schedule. -/
def collectRoomsAux (found : Bool) (rooms : List (String × Option String)) :
    List String → Except Fault (Bool × List (String × Option String))
  | [] => Except.ok (found, rooms)
  | raw :: rest =>
    match qualifies raw with
    | Except.error f => Except.error f
    | Except.ok true =>
      collectRoomsAux true (dictUpdate rooms (pairUp ((pySplit raw '_').drop 12))) rest
    | Except.ok false => collectRoomsAux found rooms rest

/-- The error message raised when no qualifying (fake) schedule exists. -/
def fakeScheduleMsg : String :=
  "Fake schedule not found. " ++
  "Please create a scheduled cleanup with the " ++
  "following properties:\n" ++
  "* Hour: 00\n" ++
  "* Minute: 00\n" ++
  "* Select all (minus one) the rooms one by one\n" ++
  "* Set as inactive scheduled cleanup\n" ++
  "Then create a scheduled cleanup with the room missed at " ++
  "previous step with the following properties:\n" ++
  "* Hour: 00\n" ++
  "* Minute: 00\n" ++
  "* Select only the missed room\n" ++
  "* Set as inactive scheduled cleanup\n"

/-- Operation `get_rooms`: return the cached table when it is nonempty and
no refresh is requested; otherwise validate the optional map name/id
against the fetched map list (note Python's `elif map_id:` skips the
validation for id `0`), scan the scheduled-cleanup strings, and fail with
`fakeScheduleMsg` when no schedule qualifies. -/
def get_rooms (cacheRooms : List (String × Option String)) (map_id : Option Int)
    (map_name : Option String) (refresh : Bool) (maps : List MapEntry)
    (schedules : List String) :
    Except Fault (List Rpc × List (String × Option String)) :=
  if !cacheRooms.isEmpty && !refresh then Except.ok ([], cacheRooms)
  else
    match
      (match map_name with
       | some mn =>
         match maps.foldl (fun acc m => if m.name == mn then some m.id else acc) none with
         | none =>
           Except.error (Fault.viomiError
             ("Error: Bad map name, should be in " ++ joinComma (maps.map MapEntry.name)))
         | some _ => Except.ok [getMapRpc]
       | none =>
         match map_id with
         | some mid =>
           if mid ≠ 0 then
             if (maps.map MapEntry.id).contains mid then Except.ok [getMapRpc]
             else
               Except.error (Fault.viomiError
                 ("Error: Bad map id, should be in " ++
                  joinComma ((maps.map MapEntry.id).map toString)))
           else Except.ok []
         | none => Except.ok []) with
    | Except.error f => Except.error f
    | Except.ok calls1 =>
      match collectRoomsAux false [] schedules with
      | Except.error f => Except.error f
      | Except.ok (found, rooms) =>
        if found then Except.ok (calls1 ++ [getOrdertimeRpc], rooms)
        else Except.error (Fault.viomiError fakeScheduleMsg)

/-! `start_with_room` -/

/-- Lookup in `reverse_rooms = {v: k for k, v in rooms.items()}`: the last
binding wins, as in a Python dict comprehension. -/
def revLookup (rooms : List (String × Option String)) (name : String) : Option String :=
  rooms.foldl (fun acc kv => if kv.2 == some name then some kv.1 else acc) none

/-- Python `", ".join(rooms.values())`: raises `TypeError` when a value is
`None`. -/
def joinVals (vals : List (Option String)) : Except Fault String :=
  if vals.all Option.isSome then Except.ok (joinComma (vals.filterMap id))
  else Except.error Fault.typeError

/-- The error string returned (not raised) for an unresolvable room. -/
def unknownRoomMsg (room : String) (rooms : List (String × Option String))
    (vals : String) : String :=
  "Rooms " ++ room ++ " is unknown, it should be in \x27" ++
    joinComma (rooms.map Prod.fst) ++ "\x27 or in \x27" ++ vals ++ "\x27"

/-- The room-resolution loop of `start_with_room`: a known id is kept, a
known name is replaced by its id (via `reverse_rooms`), and the first
identifier that is neither makes the operation return the descriptive
error string. -/
def resolveRooms (rooms : List (String × Option String)) :
    List String → Except Fault (String ⊕ List String)
  | [] => Except.ok (Sum.inr [])
  | room :: rest =>
    if (rooms.map Prod.fst).contains room then
      match resolveRooms rooms rest with
      | Except.error f => Except.error f
      | Except.ok (Sum.inl e) => Except.ok (Sum.inl e)
      | Except.ok (Sum.inr ids) => Except.ok (Sum.inr (room :: ids))
    else
      match revLookup rooms room with
      | some k =>
        match resolveRooms rooms rest with
        | Except.error f => Except.error f
        | Except.ok (Sum.inl e) => Except.ok (Sum.inl e)
        | Except.ok (Sum.inr ids) => Except.ok (Sum.inr (k :: ids))
      | none =>
        match joinVals (rooms.map Prod.snd) with
        | Except.error f => Except.error f
        | Except.ok vals => Except.ok (Sum.inl (unknownRoomMsg room rooms vals))

/-- Operation `start_with_room`: build the room table on demand when the
cache is empty, resolve the requested identifiers, return the error string
(issuing no `set_mode_withroom` call) on an unresolvable one, else read and
cache the edge mode and send `set_mode_withroom` with the cached edge
prefix plus `[1, 0, count, *resolved_ids]`.  The result carries the new
session state, the issued calls, and the returned error string if any. -/
def start_with_room (st : SessionSt) (roomsArg : List String) (maps : List MapEntry)
    (schedules : List String) (edge_resp : List Int) :
    Except Fault (SessionSt × List Rpc × Option String) :=
  match
    (if st.rooms.isEmpty then
      match get_rooms st.rooms none none false maps schedules with
      | Except.error f => Except.error f
      | Except.ok (rpcs, rms) => Except.ok ({ st with rooms := rms }, rpcs)
    else (Except.ok (st, []) : Except Fault (SessionSt × List Rpc))) with
  | Except.error f => Except.error f
  | Except.ok (st1, calls1) =>
    match resolveRooms st1.rooms roomsArg with
    | Except.error f => Except.error f
    | Except.ok (Sum.inl emsg) => Except.ok (st1, calls1, some emsg)
    | Except.ok (Sum.inr ids) =>
      Except.ok ({ st1 with edge_state := some edge_resp },
        calls1 ++ [getPropsModeRpc,
          ⟨"set_mode_withroom",
           Payload.plist (edge_resp.map Arg.i ++
             [Arg.i 1, Arg.i 0, Arg.i (ids.length : Int)] ++ ids.map Arg.s)⟩],
        none)

/-! Spec-side definitions

Definitions transcribed from the specification's words, to be compared
with the code-side definitions above.
-/

/-- Observation: did the run return (the `while` loop exit or the early
return)? -/
def isDone : RunResult → Bool
  | RunResult.done _ _ => true
  | _ => false

/-- Observation: the retained position history of a run result. -/
def histOf : RunResult → List ViomiPositionPoint
  | RunResult.done _ st => st.hist
  | RunResult.outOfPolls st => st.hist
  | RunResult.raised => []

/-- Spec wording for a qualifying schedule string: its underscore-delimited
fields have the disabled flag (field 1), the hour (field 3) and the minute
(field 4) all equal to "0". -/
def qualifiesSpec (s : String) : Prop :=
  (pySplit s '_')[1]? = some ("0") ∧
  (pySplit s '_')[3]? = some ("0") ∧
  (pySplit s '_')[4]? = some ("0")

instance (s : String) : Decidable (qualifiesSpec s) := by
  unfold qualifiesSpec
  infer_instance

/-- Spec wording for a resolvable room identifier: a known id (a key of the
room table) or a known name (a value of the room table). -/
def resolvableB (rooms : List (String × Option String)) (r : String) : Bool :=
  (rooms.map Prod.fst).contains r || (revLookup rooms r).isSome

/-- The id a resolvable identifier resolves to: itself when it is a key,
else the (last) key holding it as a name. -/
def resolveOne (rooms : List (String × Option String)) (r : String) : String :=
  if (rooms.map Prod.fst).contains r then r else (revLookup rooms r).getD r

/-! Claim theorems -/

/-- C8: equality of two `ViomiPositionPoint` values depends only on x, y
and heading (phi) and ignores the timestamp: for all t1, t2,
`(1,2,90,t1) == (1,2,90,t2)`, and `(1,2,90,t) != (1,2,91,t)` for any t. -/
theorem C8_point_eq_ignores_timestamp :
    (∀ t1 t2 : Int, pointEq ⟨1, 2, 90, t1, 1⟩ ⟨1, 2, 90, t2, 1⟩ = true) ∧
    (∀ t : Int, pointEq ⟨1, 2, 90, t, 1⟩ ⟨1, 2, 91, t, 1⟩ = false) :=
  ⟨fun _ _ => rfl, fun _ => rfl⟩

/-- C4 (code bug): for any consumable data `[a, b, c, d]` (hours), the main
brush, side brush and filter accessors return exactly `rated_total`
minus the elapsed usage (360 h, 180 h, 180 h), and for elapsed `0` exactly
the rated total (side brush 180 h); but `mop_left` faults instead of
returning `180 h - elapsed`: its body reads `self.sensor_dirty_total` and
`self.sensor_dirty`, neither of which exists on the instance, while the
initialized `mop_total` is never used. -/
theorem C4_consumable_left (a b c d : Int) :
    (mkConsumableStatus [a, b, c, d]).main_brush_left = some (360 * 60 * 60 - a * 60 * 60) ∧
    (mkConsumableStatus [a, b, c, d]).side_brush_left = some (180 * 60 * 60 - b * 60 * 60) ∧
    (mkConsumableStatus [a, b, c, d]).filter_left = some (180 * 60 * 60 - c * 60 * 60) ∧
    (mkConsumableStatus [0, 0, 0, 0]).side_brush_left = some (180 * 60 * 60) ∧
    (mkConsumableStatus [a, b, c, d]).mop_total = 180 * 60 * 60 ∧
    (mkConsumableStatus [a, b, c, d]).mop_left = none :=
  ⟨rfl, rfl, rfl, rfl, rfl, rfl⟩

theorem contains_false_of_not_mem {l : List Int} {x : Int} (h : x ∉ l) :
    l.contains x = false := by
  induction l with
  | nil => rfl
  | cons a as ih =>
    have hne : (x == a) = false := beq_eq_false_iff_ne.mpr (fun e => h (e ▸ List.mem_cons_self a as))
    simp only [List.contains_cons, hne, Bool.false_or]
    exact ih (fun hm => h (List.mem_cons_of_mem a hm))

/-- C5: for each of `set_map`, `delete_map` and `rename_map`, if the given
map id is absent from the id set returned by `get_maps()`, the operation
fails with a `ViomiVacuumException` whose message names the missing id, and
the underlying mutating RPC (`set_map` / `del_map` / `rename_map`) is never
issued: the only call made is the `get_map` fetch. -/
theorem C5_map_mutation_guard (maps : List MapEntry) (map_id : Int) (map_name : String)
    (habs : map_id ∉ maps.map MapEntry.id) :
    (∃ m, (set_map maps map_id).2 = Except.error (Fault.viomiError m) ∧
      strHas m (toString map_id) = true) ∧
    (set_map maps map_id).1 = [getMapRpc] ∧
    (∃ m, (delete_map maps map_id).2 = Except.error (Fault.viomiError m) ∧
      strHas m (toString map_id) = true) ∧
    (delete_map maps map_id).1 = [getMapRpc] ∧
    (∃ m, (rename_map maps map_id map_name).2 = Except.error (Fault.viomiError m) ∧
      strHas m (toString map_id) = true) ∧
    (rename_map maps map_id map_name).1 = [getMapRpc] := by
  have hc : (maps.map MapEntry.id).contains map_id = false :=
    contains_false_of_not_mem habs
  refine ⟨⟨_, ?_, strHas_append ("Map id ") (toString map_id) (" doesn\x27t exists")⟩, ?_,
    ⟨_, ?_, strHas_append ("Map id ") (toString map_id) (" doesn\x27t exists")⟩, ?_,
    ⟨_, ?_, strHas_append ("Map id ") (toString map_id) (" doesn\x27t exists")⟩, ?_⟩ <;>
    simp only [set_map, delete_map, rename_map, hc, Bool.false_eq_true, if_false]

/-- Witness for C5 at a concrete map list and id: id 5 is not among the ids
of `[{name := "MapName1", id := 1598622255, cur := false}]`, so all three
mutations fail with a message naming 5 and issue only the `get_map` fetch. -/
theorem C5_map_mutation_guard_witness :
    (5 : Int) ∉ ([⟨"MapName1", 1598622255, false⟩] : List MapEntry).map MapEntry.id ∧
    ((∃ m, (set_map [⟨"MapName1", 1598622255, false⟩] 5).2 =
        Except.error (Fault.viomiError m) ∧ strHas m (toString (5 : Int)) = true) ∧
      (set_map [⟨"MapName1", 1598622255, false⟩] 5).1 = [getMapRpc] ∧
      (∃ m, (delete_map [⟨"MapName1", 1598622255, false⟩] 5).2 =
        Except.error (Fault.viomiError m) ∧ strHas m (toString (5 : Int)) = true) ∧
      (delete_map [⟨"MapName1", 1598622255, false⟩] 5).1 = [getMapRpc] ∧
      (∃ m, (rename_map [⟨"MapName1", 1598622255, false⟩] 5 "NewName").2 =
        Except.error (Fault.viomiError m) ∧ strHas m (toString (5 : Int)) = true) ∧
      (rename_map [⟨"MapName1", 1598622255, false⟩] 5 "NewName").1 = [getMapRpc]) :=
  ⟨by decide, C5_map_mutation_guard _ 5 "NewName" (by decide)⟩

/-- C10: if the very first position fetch of `follow_position` returns an
empty list, the operation returns immediately: no output image is written
(`saves = []`), the five-empty-poll loop is never entered, and no further
RPC call is issued (the whole remaining poll script is untouched). -/
theorem C10_first_fetch_empty (raw : List Int) (rest : List Poll)
    (h : get_positions fpMult raw = []) :
    follow_position (Poll.ok raw :: rest) = RunResult.done rest initSt ∧
    initSt.saves = [] := by
  refine ⟨?_, rfl⟩
  simp [follow_position, h]

/-- Witness for C10: an empty raw reply followed by an available nonempty
poll that is never consumed. -/
theorem C10_first_fetch_empty_witness :
    get_positions fpMult [] = [] ∧
    follow_position [Poll.ok [], Poll.ok [1, 2, 3, 4]] =
      RunResult.done [Poll.ok [1, 2, 3, 4]] initSt ∧
    initSt.saves = [] :=
  ⟨rfl, (C10_first_fetch_empty [] [Poll.ok [1, 2, 3, 4]] rfl).1,
   (C10_first_fetch_empty [] [Poll.ok [1, 2, 3, 4]] rfl).2⟩

/-- C1 counterexample: the claim says every enum-typed accessor degrades to
an `Unknown` fallback on an unmapped integer and never raises; but decoding
`suction_grade = 4` through `fanspeed` raises an uncaught `ValueError`
(modelled by `none`) — `ViomiVacuumSpeed` has no `Unknown` member and the
accessor has no `try/except` guard. -/
theorem C1_unknown_decode_counterexample :
    fanspeed (snapOf ("suction_grade") 4) = none :=
  rfl

theorem dictGet_eq_none (d : List (Int × String)) (k : Int)
    (h : k ∉ d.map Prod.fst) : dictGet d k = none := by
  induction d with
  | nil => rfl
  | cons kv rest ih =>
    have hne : kv.1 ≠ k := by
      intro e
      exact h (by simp [e])
    rw [show dictGet (kv :: rest) k = if kv.1 = k then some kv.2 else dictGet rest k from rfl,
      if_neg hne]
    exact ih (fun hm => h (List.mem_cons_of_mem _ hm))

/-- C1 amended: only the `state` accessor (guarded by `try/except`) and the
`error` accessor (`dict.get` with a default) have defined fallbacks for
every unmapped integer code — `Unknown` and the string `"Unknown error N"`
respectively; each of the remaining enum accessors (`fanspeed`,
`water_grade`, `bin_type`, `mop_mode`, `mop_route`, `voice_state`,
`edge_state`) raises an uncaught `ValueError` (modelled by `none`) on every
integer outside its enum's value set. -/
theorem C1_unknown_decode_amended :
    (∀ n : Int, n ∉ ([-1, 0, 1, 2, 3, 4, 5, 6] : List Int) →
      state (snapOf ("run_state") n) = ViomiVacuumState.Unknown) ∧
    (∀ n : Int, n ∉ ERROR_CODES.map Prod.fst →
      error (snapOf ("err_state") n) = some ("Unknown error " ++ toString n)) ∧
    (∀ n : Int, n ∉ ([0, 1, 2, 3] : List Int) →
      fanspeed (snapOf ("suction_grade") n) = none) ∧
    (∀ n : Int, n ∉ ([11, 12, 13] : List Int) →
      water_grade (snapOf ("water_grade") n) = none) ∧
    (∀ n : Int, n ∉ ([1, 2, 3, 0] : List Int) →
      bin_type (snapOf ("box_type") n) = none) ∧
    (∀ n : Int, n ∉ ([0, 1, 2, 3, 4] : List Int) →
      mop_mode (snapOf ("is_mop") n) = none) ∧
    (∀ n : Int, n ∉ ([0, 1] : List Int) →
      mop_route (snapOf ("mop_route") n) = none) ∧
    (∀ n : Int, n ∉ ([0, 5] : List Int) →
      voice_state (snapOf ("v_state") n) = none) ∧
    (∀ n : Int, n ∉ ([0, 1, 2] : List Int) →
      edge_state (snapOf ("mode") n) = none) := by
  refine ⟨?_, ?_, ?_, ?_, ?_, ?_, ?_, ?_, ?_⟩ <;> intro n h
  · simp only [List.mem_cons, List.not_mem_nil, or_false, not_or] at h
    obtain ⟨h1, h2, h3, h4, h5, h6, h7, h8⟩ := h
    simp [state, snapOf, viomiVacuumState?, h1, h2, h3, h4, h5, h6, h7, h8]
  · simp [error, error_code, snapOf, dictGet_eq_none ERROR_CODES n h]
  · simp only [List.mem_cons, List.not_mem_nil, or_false, not_or] at h
    obtain ⟨h1, h2, h3, h4⟩ := h
    simp [fanspeed, snapOf, viomiVacuumSpeed?, h1, h2, h3, h4]
  · simp only [List.mem_cons, List.not_mem_nil, or_false, not_or] at h
    obtain ⟨h1, h2, h3⟩ := h
    simp [water_grade, snapOf, viomiWaterGrade?, h1, h2, h3]
  · simp only [List.mem_cons, List.not_mem_nil, or_false, not_or] at h
    obtain ⟨h1, h2, h3, h4⟩ := h
    simp [bin_type, snapOf, viomiBinType?, h1, h2, h3, h4]
  · simp only [List.mem_cons, List.not_mem_nil, or_false, not_or] at h
    obtain ⟨h1, h2, h3, h4, h5⟩ := h
    simp [mop_mode, snapOf, viomiMode?, h1, h2, h3, h4, h5]
  · simp only [List.mem_cons, List.not_mem_nil, or_false, not_or] at h
    obtain ⟨h1, h2⟩ := h
    simp [mop_route, snapOf, viomiRoutePattern?, h1, h2]
  · simp only [List.mem_cons, List.not_mem_nil, or_false, not_or] at h
    obtain ⟨h1, h2⟩ := h
    simp [voice_state, snapOf, viomiVoiceState?, h1, h2]
  · simp only [List.mem_cons, List.not_mem_nil, or_false, not_or] at h
    obtain ⟨h1, h2, h3⟩ := h
    simp [edge_state, snapOf, viomiEdgeState?, h1, h2, h3]

/-- Witness for C1 amended at code 99: unmapped everywhere. -/
theorem C1_unknown_decode_amended_witness :
    ((99 : Int) ∉ ([-1, 0, 1, 2, 3, 4, 5, 6] : List Int)) ∧
    state (snapOf ("run_state") 99) = ViomiVacuumState.Unknown ∧
    ((99 : Int) ∉ ERROR_CODES.map Prod.fst) ∧
    error (snapOf ("err_state") 99) = some ("Unknown error " ++ toString (99 : Int)) ∧
    fanspeed (snapOf ("suction_grade") 99) = none ∧
    water_grade (snapOf ("water_grade") 99) = none ∧
    bin_type (snapOf ("box_type") 99) = none ∧
    mop_mode (snapOf ("is_mop") 99) = none ∧
    mop_route (snapOf ("mop_route") 99) = none ∧
    voice_state (snapOf ("v_state") 99) = none ∧
    edge_state (snapOf ("mode") 99) = none :=
  ⟨by decide, C1_unknown_decode_amended.1 99 (by decide),
   by decide, C1_unknown_decode_amended.2.1 99 (by decide),
   C1_unknown_decode_amended.2.2.1 99 (by decide),
   C1_unknown_decode_amended.2.2.2.1 99 (by decide),
   C1_unknown_decode_amended.2.2.2.2.1 99 (by decide),
   C1_unknown_decode_amended.2.2.2.2.2.1 99 (by decide),
   C1_unknown_decode_amended.2.2.2.2.2.2.1 99 (by decide),
   C1_unknown_decode_amended.2.2.2.2.2.2.2.1 99 (by decide),
   C1_unknown_decode_amended.2.2.2.2.2.2.2.2 99 (by decide)⟩

/-- C3 counterexample: the claim says the mode-changing operations read the
edge mode at most once per session; but two successive `start` calls on a
fresh session each issue a `get_properties(["mode"])` read — `start`
(like `start_with_room`) re-queries and overwrites the cache
unconditionally on every call. -/
theorem C3_edge_cache_counterexample :
    modeQueries ((start initSession [0]).2 ++ (start (start initSession [0]).1 [0]).2) = 2 :=
  rfl

/-- C3 amended: `pause` and `stop` read the edge mode lazily — no read when
the cached value is truthy (and the session state is untouched), exactly
one read caching the reply when it is falsy, and a second `pause`/`stop`
after a `pause` that cached a nonempty reply issues no read; whereas
`start` issues exactly one edge-mode read on every call, overwriting the
cache, and a `start_with_room` call (here with a one-room table) likewise
issues exactly one. -/
theorem C3_edge_cache_amended :
    (∀ st e, falsyList st.edge_state = false →
      modeQueries (pause st e).2 = 0 ∧ (pause st e).1 = st ∧
      modeQueries (stop st e).2 = 0 ∧ (stop st e).1 = st) ∧
    (∀ st e, falsyList st.edge_state = true →
      modeQueries (pause st e).2 = 1 ∧ (pause st e).1.edge_state = some e ∧
      modeQueries (stop st e).2 = 1 ∧ (stop st e).1.edge_state = some e) ∧
    (∀ st e e2, e ≠ [] →
      modeQueries (pause (pause st e).1 e2).2 = 0 ∧
      modeQueries (stop (pause st e).1 e2).2 = 0) ∧
    (∀ st e, modeQueries (start st e).2 = 1 ∧ (start st e).1.edge_state = some e) ∧
    (∀ st e, st.rooms = [("11", some ("ami"))] →
      ∃ st2 calls, start_with_room st ["11"] [] [] e = Except.ok (st2, calls, none) ∧
        modeQueries calls = 1 ∧ st2.edge_state = some e) := by
  refine ⟨?_, ?_, ?_, ?_, ?_⟩
  · intro st e h
    unfold pause stop
    rw [if_neg (by simp [h]), if_neg (by simp [h])]
    exact ⟨rfl, rfl, rfl, rfl⟩
  · intro st e h
    unfold pause stop
    rw [if_pos h, if_pos h]
    exact ⟨rfl, rfl, rfl, rfl⟩
  · intro st e e2 he
    by_cases h : falsyList st.edge_state = true
    · have hp : (pause st e).1 = { st with edge_state := some e } := by
        unfold pause
        rw [if_pos h]
      have hfe : falsyList ({ st with edge_state := some e } : SessionSt).edge_state = false := by
        simp only [falsyList]
        exact List.isEmpty_eq_false.mpr he
      rw [hp]
      constructor
      · unfold pause
        rw [if_neg (by simp [hfe])]
        rfl
      · unfold stop
        rw [if_neg (by simp [hfe])]
        rfl
    · have h0 : falsyList st.edge_state = false := by
        simpa using h
      have hp : (pause st e).1 = st := by
        unfold pause
        rw [if_neg (by simp [h0])]
      rw [hp]
      constructor
      · unfold pause
        rw [if_neg (by simp [h0])]
        rfl
      · unfold stop
        rw [if_neg (by simp [h0])]
        rfl
  · intro st e
    exact ⟨rfl, rfl⟩
  · intro st e h
    obtain ⟨es, rms⟩ := st
    have h2 : rms = [("11", some ("ami"))] := h
    subst h2
    exact ⟨_, _, rfl, rfl, rfl⟩

/-- Witness for C3 amended at concrete sessions: a cached session for the
lazy reads, a fresh session for the caching read, and a session with a
one-room table for `start_with_room`. -/
theorem C3_edge_cache_amended_witness :
    (falsyList (SessionSt.mk (some [0]) []).edge_state = false ∧
      modeQueries (pause ⟨some [0], []⟩ [2]).2 = 0 ∧ (pause ⟨some [0], []⟩ [2]).1 = ⟨some [0], []⟩ ∧
      modeQueries (stop ⟨some [0], []⟩ [2]).2 = 0 ∧ (stop ⟨some [0], []⟩ [2]).1 = ⟨some [0], []⟩) ∧
    (falsyList initSession.edge_state = true ∧
      modeQueries (pause initSession [0]).2 = 1 ∧
      (pause initSession [0]).1.edge_state = some [0] ∧
      modeQueries (stop initSession [0]).2 = 1 ∧
      (stop initSession [0]).1.edge_state = some [0]) ∧
    (([0] : List Int) ≠ [] ∧
      modeQueries (pause (pause initSession [0]).1 [2]).2 = 0 ∧
      modeQueries (stop (pause initSession [0]).1 [2]).2 = 0) ∧
    (modeQueries (start initSession [0]).2 = 1 ∧
      (start initSession [0]).1.edge_state = some [0]) ∧
    (SessionSt.rooms ⟨none, [("11", some ("ami"))]⟩ = [("11", some ("ami"))] ∧
      ∃ st2 calls,
        start_with_room ⟨none, [("11", some ("ami"))]⟩ ["11"] [] [] [0] =
          Except.ok (st2, calls, none) ∧
        modeQueries calls = 1 ∧ st2.edge_state = some [0]) :=
  ⟨⟨rfl, C3_edge_cache_amended.1 ⟨some [0], []⟩ [2] rfl⟩,
   ⟨rfl, C3_edge_cache_amended.2.1 initSession [0] rfl⟩,
   ⟨by decide, C3_edge_cache_amended.2.2.1 initSession [0] [2] (by decide)⟩,
   C3_edge_cache_amended.2.2.2.1 initSession [0],
   ⟨rfl, C3_edge_cache_amended.2.2.2.2 ⟨none, [("11", some ("ami"))]⟩ [0] rfl⟩⟩

theorem followLoop_done (n : Nat) (st : RunSt) (positions : List ViomiPositionPoint)
    (polls : List Poll) (h : 5 ≤ n) :
    followLoop n st positions polls = RunResult.done polls st := by
  cases polls with
  | nil =>
    unfold followLoop
    rw [if_pos h]
  | cons poll rest =>
    unfold followLoop
    rw [if_pos h]

theorem followLoop_empty_poll (n : Nat) (st : RunSt) (positions : List ViomiPositionPoint)
    (rest : List Poll) (h : n < 5) :
    followLoop n st positions (Poll.ok [] :: rest) =
      followLoop (n + 1)
        { processPositions st positions with
          sleeps := (processPositions st positions).sleeps ++ [1, 1] } [] rest := by
  show (if 5 ≤ n then RunResult.done (Poll.ok [] :: rest) st
        else followLoop (n + 1)
          { processPositions st positions with
            sleeps := (processPositions st positions).sleeps ++ [1, 1] } [] rest) = _
  rw [if_neg (by omega)]

theorem followLoop_err_poll (n : Nat) (st : RunSt) (positions : List ViomiPositionPoint)
    (rest : List Poll) (h : n < 5) :
    followLoop n st positions (Poll.err :: rest) =
      followLoop n
        { processPositions st positions with
          sleeps := (processPositions st positions).sleeps ++ [4] } [] rest := by
  show (if 5 ≤ n then RunResult.done (Poll.err :: rest) st
        else followLoop n
          { processPositions st positions with
            sleeps := (processPositions st positions).sleeps ++ [4] } [] rest) = _
  rw [if_neg (by omega)]

theorem followLoop_resume_poll (n : Nat) (st : RunSt) (raw : List Int)
    (rest : List Poll) (h : n < 5) (hraw : get_positions fpMult raw ≠ []) :
    followLoop n st [] (Poll.ok raw :: rest) =
      followLoop 0 { st with sleeps := st.sleeps ++ [1] }
        (get_positions fpMult raw) rest := by
  show (if 5 ≤ n then RunResult.done (Poll.ok raw :: rest) st
        else if (get_positions fpMult raw).isEmpty = true then
          followLoop (n + 1) { st with sleeps := st.sleeps ++ [1, 1] }
            (get_positions fpMult raw) rest
        else followLoop 0 { st with sleeps := st.sleeps ++ [1] }
          (get_positions fpMult raw) rest) = _
  rw [if_neg (by omega), if_neg (by simp [List.isEmpty_eq_false.mpr hraw])]

theorem follow_position_start (raw : List Int) (rest : List Poll)
    (h : get_positions fpMult raw ≠ []) :
    follow_position (Poll.ok raw :: rest) =
      followLoop 0 initSt (get_positions fpMult raw) rest := by
  show (if (get_positions fpMult raw).isEmpty = true then RunResult.done rest initSt
        else followLoop 0 initSt (get_positions fpMult raw) rest) = _
  rw [if_neg (by simp [List.isEmpty_eq_false.mpr h])]

theorem follow_position_five_empty (raw : List Int) (rest : List Poll)
    (h : get_positions fpMult raw ≠ []) :
    ∃ st, follow_position (Poll.ok raw :: Poll.ok [] :: Poll.ok [] :: Poll.ok [] ::
        Poll.ok [] :: Poll.ok [] :: rest) = RunResult.done rest st ∧
      st.offX = (processPositions initSt (get_positions fpMult raw)).offX ∧
      st.offY = (processPositions initSt (get_positions fpMult raw)).offY ∧
      st.hist = (processPositions initSt (get_positions fpMult raw)).hist ∧
      st.canvas = (processPositions initSt (get_positions fpMult raw)).canvas ∧
      st.saves = (processPositions initSt (get_positions fpMult raw)).saves := by
  rw [follow_position_start raw _ h,
    followLoop_empty_poll 0 _ _ _ (by omega),
    followLoop_empty_poll 1 _ _ _ (by omega),
    followLoop_empty_poll 2 _ _ _ (by omega),
    followLoop_empty_poll 3 _ _ _ (by omega),
    followLoop_empty_poll 4 _ _ _ (by omega),
    followLoop_done 5 _ _ _ (by omega)]
  exact ⟨_, rfl, rfl, rfl, rfl, rfl, rfl⟩

/-- C2 counterexample: the claim says the loop terminates after five
consecutive polls that yield no new distinct position.  Here the device
keeps answering with the same point (fresh timestamps, same x/y/heading):
six consecutive polls yield no new distinct position (the history stays at
one point), yet the run never returns — a nonempty poll resets the counter
even when every reported position is a duplicate, and the loop keeps
issuing further RPC calls until the script is exhausted. -/
theorem C2_loop_termination_counterexample :
    isDone (follow_position [Poll.ok [1, 2, 90, 0], Poll.ok [1, 2, 90, 1],
      Poll.ok [1, 2, 90, 2], Poll.ok [1, 2, 90, 3], Poll.ok [1, 2, 90, 4],
      Poll.ok [1, 2, 90, 5], Poll.ok [1, 2, 90, 6]]) = false ∧
    histOf (follow_position [Poll.ok [1, 2, 90, 0], Poll.ok [1, 2, 90, 1],
      Poll.ok [1, 2, 90, 2], Poll.ok [1, 2, 90, 3], Poll.ok [1, 2, 90, 4],
      Poll.ok [1, 2, 90, 5], Poll.ok [1, 2, 90, 6]]) = [⟨1, 2, 90, 0, 1000⟩] :=
  ⟨rfl, rfl⟩

/-- C2 amended: the loop terminates after five consecutive polls that
return an *empty* position list (a nonempty poll of stale duplicates resets
the counter instead), and it terminates without issuing further RPC calls
(the remaining script is returned untouched, and the drawing state is
exactly that of the processed first fetch); whereas a transient fetch error
never terminates the loop: it triggers the backoff sleep of
`wait_time * 4`, resets the positions buffer to empty for that iteration,
leaves the no-progress counter unchanged, and a later valid poll resumes
the loop with the counter reset to zero and the fetched positions buffered
for accumulation. -/
theorem C2_loop_termination_amended :
    (∀ raw rest, get_positions fpMult raw ≠ [] →
      ∃ st, follow_position (Poll.ok raw :: Poll.ok [] :: Poll.ok [] :: Poll.ok [] ::
          Poll.ok [] :: Poll.ok [] :: rest) = RunResult.done rest st ∧
        st.hist = (processPositions initSt (get_positions fpMult raw)).hist ∧
        st.saves = (processPositions initSt (get_positions fpMult raw)).saves) ∧
    (∀ n st positions rest, n < 5 →
      followLoop n st positions (Poll.err :: rest) =
        followLoop n
          { processPositions st positions with
            sleeps := (processPositions st positions).sleeps ++ [4] } [] rest) ∧
    (∀ n st raw rest, n < 5 → get_positions fpMult raw ≠ [] →
      followLoop n st [] (Poll.ok raw :: rest) =
        followLoop 0 { st with sleeps := st.sleeps ++ [1] }
          (get_positions fpMult raw) rest) := by
  refine ⟨?_, ?_, ?_⟩
  · intro raw rest h
    obtain ⟨st, h1, _, _, h4, _, h6⟩ := follow_position_five_empty raw rest h
    exact ⟨st, h1, h4, h6⟩
  · intro n st positions rest h
    exact followLoop_err_poll n st positions rest h
  · intro n st raw rest h hraw
    exact followLoop_resume_poll n st raw rest h hraw

/-- Witness for C2 amended: a first fetch of one point followed by five
empty polls terminates leaving a trailing error poll unconsumed; an error
poll at counter 3 continues with an emptied buffer; a valid poll after an
idle iteration resumes with the counter reset. -/
theorem C2_loop_termination_amended_witness :
    (get_positions fpMult [1, 2, 90, 0] ≠ [] ∧
      ∃ st, follow_position [Poll.ok [1, 2, 90, 0], Poll.ok [], Poll.ok [], Poll.ok [],
          Poll.ok [], Poll.ok [], Poll.err] = RunResult.done [Poll.err] st ∧
        st.hist = (processPositions initSt (get_positions fpMult [1, 2, 90, 0])).hist ∧
        st.saves = (processPositions initSt (get_positions fpMult [1, 2, 90, 0])).saves) ∧
    ((3 : Nat) < 5 ∧
      followLoop 3 initSt [] (Poll.err :: [Poll.ok [5, 6, 0, 0]]) =
        followLoop 3
          { processPositions initSt [] with
            sleeps := (processPositions initSt []).sleeps ++ [4] } [] [Poll.ok [5, 6, 0, 0]]) ∧
    ((3 : Nat) < 5 ∧ get_positions fpMult [5, 6, 0, 0] ≠ [] ∧
      followLoop 3 initSt [] (Poll.ok [5, 6, 0, 0] :: []) =
        followLoop 0 { initSt with sleeps := initSt.sleeps ++ [1] }
          (get_positions fpMult [5, 6, 0, 0]) []) :=
  ⟨⟨by decide, C2_loop_termination_amended.1 [1, 2, 90, 0] [Poll.err] (by decide)⟩,
   ⟨by decide, C2_loop_termination_amended.2.1 3 initSt [] [Poll.ok [5, 6, 0, 0]] (by decide)⟩,
   ⟨by decide, by decide,
    C2_loop_termination_amended.2.2 3 initSt [5, 6, 0, 0] [] (by decide) (by decide)⟩⟩

theorem qualifies_iff (s : String) : qualifies s = Except.ok true ↔ qualifiesSpec s := by
  unfold qualifies qualifiesSpec
  cases h1 : (pySplit s '_')[1]? with
  | none => simp [h1]
  | some e =>
    cases h3 : (pySplit s '_')[3]? with
    | none =>
      by_cases he : e = "0" <;> simp [h1, h3, he]
    | some f =>
      cases h4 : (pySplit s '_')[4]? with
      | none =>
        by_cases he : e = "0" <;> by_cases hf : f = "0" <;> simp [h1, h3, h4, he, hf]
      | some m =>
        by_cases he : e = "0" <;> by_cases hf : f = "0" <;> by_cases hm : m = "0" <;>
          simp [h1, h3, h4, he, hf, hm]

theorem qualifies_ok_false (s : String) (hlen : 5 ≤ (pySplit s '_').length)
    (hnq : ¬ qualifiesSpec s) : qualifies s = Except.ok false := by
  obtain ⟨e, h1⟩ : ∃ e, (pySplit s '_')[1]? = some e :=
    ⟨_, List.getElem?_eq_getElem (by omega)⟩
  obtain ⟨f, h3⟩ : ∃ f, (pySplit s '_')[3]? = some f :=
    ⟨_, List.getElem?_eq_getElem (by omega)⟩
  obtain ⟨m, h4⟩ : ∃ m, (pySplit s '_')[4]? = some m :=
    ⟨_, List.getElem?_eq_getElem (by omega)⟩
  unfold qualifies
  unfold qualifiesSpec at hnq
  by_cases he : e = "0"
  · by_cases hf : f = "0"
    · have hm : m ≠ "0" := by
        intro hm
        exact hnq ⟨by rw [h1, he], by rw [h3, hf], by rw [h4, hm]⟩
      simp [h1, h3, h4, he, hf, beq_eq_false_iff_ne.mpr hm]
    · simp [h1, h3, he, hf]
  · simp [h1, he]

theorem collectRoomsAux_nofound (schedules : List String)
    (rooms : List (String × Option String))
    (h : ∀ s ∈ schedules, qualifies s = Except.ok false) :
    collectRoomsAux false rooms schedules = Except.ok (false, rooms) := by
  induction schedules generalizing rooms with
  | nil => rfl
  | cons s rest ih =>
    have hs := h s (List.mem_cons_self s rest)
    rw [show collectRoomsAux false rooms (s :: rest) =
        (match qualifies s with
         | Except.error f => Except.error f
         | Except.ok true =>
           collectRoomsAux true (dictUpdate rooms (pairUp ((pySplit s '_').drop 12))) rest
         | Except.ok false => collectRoomsAux false rooms rest) from rfl, hs]
    exact ih rooms (fun s2 hs2 => h s2 (List.mem_cons_of_mem s hs2))

set_option maxRecDepth 8000 in
/-- C6: a schedule string qualifies iff its underscore-delimited fields
have the disabled flag, the hour and the minute all zero; and when no
schedule in the device's scheduled-cleanup list qualifies, `get_rooms`
(with an empty cache and no map filter) fails with a
`ViomiVacuumException` whose text contains the literal substrings
"Hour: 00" and "Minute: 00" and the instructions for both required fake
schedules (the all-rooms-minus-one schedule and the single-missed-room
schedule, each to be set inactive). -/
theorem C6_room_table_derivation (maps : List MapEntry) (schedules : List String)
    (hnone : ∀ s ∈ schedules, ¬ qualifiesSpec s)
    (hlen : ∀ s ∈ schedules, 5 ≤ (pySplit s '_').length) :
    (∀ s, qualifies s = Except.ok true ↔ qualifiesSpec s) ∧
    get_rooms [] none none false maps schedules =
      Except.error (Fault.viomiError fakeScheduleMsg) ∧
    strHas fakeScheduleMsg ("Hour: 00") = true ∧
    strHas fakeScheduleMsg ("Minute: 00") = true ∧
    strHas fakeScheduleMsg ("* Select all (minus one) the rooms one by one\n") = true ∧
    strHas fakeScheduleMsg ("* Select only the missed room\n") = true ∧
    strHas fakeScheduleMsg ("* Set as inactive scheduled cleanup\n") = true := by
  refine ⟨qualifies_iff, ?_, by decide, by decide, by decide, by decide, by decide⟩
  have hc : collectRoomsAux false [] schedules = Except.ok (false, []) :=
    collectRoomsAux_nofound schedules []
      (fun s hs => qualifies_ok_false s (hlen s hs) (hnone s hs))
  show (match collectRoomsAux false [] schedules with
        | Except.error f => Except.error f
        | Except.ok (found, rooms) =>
          if found then Except.ok (([] : List Rpc) ++ [getOrdertimeRpc], rooms)
          else Except.error (Fault.viomiError fakeScheduleMsg)) = _
  rw [hc]
  rfl

/-- Witness for C6 at one schedule that is enabled (field 1 is "1") and
hence does not qualify. -/
theorem C6_room_table_derivation_witness :
    (∀ s ∈ ["1_1_32_1_0_0"], ¬ qualifiesSpec s) ∧
    (∀ s ∈ ["1_1_32_1_0_0"], 5 ≤ (pySplit s '_').length) ∧
    ((∀ s, qualifies s = Except.ok true ↔ qualifiesSpec s) ∧
      get_rooms [] none none false [] ["1_1_32_1_0_0"] =
        Except.error (Fault.viomiError fakeScheduleMsg) ∧
      strHas fakeScheduleMsg ("Hour: 00") = true ∧
      strHas fakeScheduleMsg ("Minute: 00") = true ∧
      strHas fakeScheduleMsg ("* Select all (minus one) the rooms one by one\n") = true ∧
      strHas fakeScheduleMsg ("* Select only the missed room\n") = true ∧
      strHas fakeScheduleMsg ("* Set as inactive scheduled cleanup\n") = true) :=
  ⟨by decide, by decide,
   C6_room_table_derivation [] ["1_1_32_1_0_0"] (by decide) (by decide)⟩

theorem strHas_unknownRoomMsg_key (room : String) (rooms : List (String × Option String))
    (vals k : String) (hk : k ∈ rooms.map Prod.fst) :
    strHas (unknownRoomMsg room rooms vals) k = true := by
  unfold unknownRoomMsg
  apply strHas_of_append_left
  apply strHas_of_append_left
  apply strHas_of_append_left
  apply strHas_of_append_right
  exact strHas_joinComma _ _ hk

theorem strHas_unknownRoomMsg_val (room : String) (rooms : List (String × Option String))
    (vals n : String) (hn : strHas vals n = true) :
    strHas (unknownRoomMsg room rooms vals) n = true := by
  unfold unknownRoomMsg
  apply strHas_of_append_left
  apply strHas_of_append_right
  exact hn

theorem resolveRooms_all (rooms : List (String × Option String)) (args : List String)
    (h : ∀ r ∈ args, resolvableB rooms r = true) :
    resolveRooms rooms args = Except.ok (Sum.inr (args.map (resolveOne rooms))) := by
  induction args with
  | nil => rfl
  | cons r rest ih =>
    have hr := h r (List.mem_cons_self r rest)
    have hrest := ih (fun x hx => h x (List.mem_cons_of_mem r hx))
    simp only [resolveRooms]
    rw [hrest]
    by_cases hc : (rooms.map Prod.fst).contains r = true
    · rw [if_pos hc, List.map_cons]
      unfold resolveOne
      rw [if_pos hc]
    · rw [if_neg hc]
      have hor := hr
      unfold resolvableB at hor
      rw [Bool.or_eq_true] at hor
      have hl : (revLookup rooms r).isSome = true := by
        rcases hor with hx | hx
        · exact absurd hx hc
        · exact hx
      obtain ⟨k, hk⟩ := Option.isSome_iff_exists.mp hl
      rw [hk, List.map_cons]
      unfold resolveOne
      rw [if_neg hc, hk]
      rfl

theorem resolveRooms_unres (rooms : List (String × Option String)) (args : List String)
    (hvals : ∀ v ∈ rooms.map Prod.snd, v.isSome = true)
    (hex : ∃ r ∈ args, resolvableB rooms r = false) :
    ∃ r, r ∈ args ∧ resolvableB rooms r = false ∧
      resolveRooms rooms args = Except.ok (Sum.inl
        (unknownRoomMsg r rooms (joinComma ((rooms.map Prod.snd).filterMap id)))) := by
  induction args with
  | nil => simp at hex
  | cons a rest ih =>
    by_cases ha : resolvableB rooms a = true
    · have hex2 : ∃ r ∈ rest, resolvableB rooms r = false := by
        obtain ⟨r, hr, hrf⟩ := hex
        rcases List.mem_cons.mp hr with h | h2
        · subst h
          simp [ha] at hrf
        · exact ⟨r, h2, hrf⟩
      obtain ⟨r, hr, hrf, hres⟩ := ih hex2
      refine ⟨r, List.mem_cons_of_mem a hr, hrf, ?_⟩
      simp only [resolveRooms]
      rw [hres]
      by_cases hc : (rooms.map Prod.fst).contains a = true
      · rw [if_pos hc]
      · rw [if_neg hc]
        have hor := ha
        unfold resolvableB at hor
        rw [Bool.or_eq_true] at hor
        have hl : (revLookup rooms a).isSome = true := by
          rcases hor with hx | hx
          · exact absurd hx hc
          · exact hx
        obtain ⟨k, hk⟩ := Option.isSome_iff_exists.mp hl
        rw [hk]
    · have ha2 : resolvableB rooms a = false := by simpa using ha
      refine ⟨a, List.mem_cons_self a rest, ha2, ?_⟩
      have ha3 := ha2
      unfold resolvableB at ha3
      rw [Bool.or_eq_false_iff] at ha3
      have hl : revLookup rooms a = none :=
        Option.not_isSome_iff_eq_none.mp (by simp [ha3.2])
      have hj : joinVals (rooms.map Prod.snd) =
          Except.ok (joinComma ((rooms.map Prod.snd).filterMap id)) := by
        unfold joinVals
        rw [if_pos (List.all_eq_true.mpr hvals)]
      simp only [resolveRooms]
      rw [if_neg (by rw [ha3.1]; exact Bool.false_ne_true), hl, hj]

/-- C7: `start_with_room` accepts room identifiers given as numeric ids or
human names; whenever the input contains an identifier that resolves
neither as a known id nor as a known name (and the room table is
well-formed), it returns — does not raise — an error string that lists
every valid id and every valid name, and issues no RPC at all (in
particular no `set_mode_withroom`); for fully resolvable input it queries
and caches the edge mode and sends `set_mode_withroom` with the cached
edge-mode prefix followed by `[1, 0, count, *resolved_ids]`; and when the
session's room table is empty it is built on demand through `get_rooms`
before resolution. -/
theorem C7_start_with_room (st : SessionSt) (args : List String) (maps : List MapEntry)
    (schedules : List String) (e : List Int) :
    (st.rooms ≠ [] → (∀ v ∈ st.rooms.map Prod.snd, v.isSome = true) →
      (∃ r ∈ args, resolvableB st.rooms r = false) →
      ∃ msg, start_with_room st args maps schedules e = Except.ok (st, [], some msg) ∧
        (∀ k ∈ st.rooms.map Prod.fst, strHas msg k = true) ∧
        (∀ n, some n ∈ st.rooms.map Prod.snd → strHas msg n = true)) ∧
    (st.rooms ≠ [] → (∀ r ∈ args, resolvableB st.rooms r = true) →
      start_with_room st args maps schedules e =
        Except.ok ({ st with edge_state := some e },
          [getPropsModeRpc,
           ⟨"set_mode_withroom",
            Payload.plist (e.map Arg.i ++ [Arg.i 1, Arg.i 0,
              Arg.i ((args.map (resolveOne st.rooms)).length : Int)] ++
              (args.map (resolveOne st.rooms)).map Arg.s)⟩],
          none)) ∧
    (∀ rpcs rms, st.rooms = [] →
      get_rooms [] none none false maps schedules = Except.ok (rpcs, rms) →
      (∀ r ∈ args, resolvableB rms r = true) →
      start_with_room st args maps schedules e =
        Except.ok ({ st with rooms := rms, edge_state := some e },
          rpcs ++ [getPropsModeRpc,
           ⟨"set_mode_withroom",
            Payload.plist (e.map Arg.i ++ [Arg.i 1, Arg.i 0,
              Arg.i ((args.map (resolveOne rms)).length : Int)] ++
              (args.map (resolveOne rms)).map Arg.s)⟩],
          none)) := by
  refine ⟨?_, ?_, ?_⟩
  · intro hne hvals hex
    have hE : st.rooms.isEmpty = false := List.isEmpty_eq_false.mpr hne
    obtain ⟨r, _, _, hres⟩ := resolveRooms_unres st.rooms args hvals hex
    refine ⟨unknownRoomMsg r st.rooms (joinComma ((st.rooms.map Prod.snd).filterMap id)),
      ?_, ?_, ?_⟩
    · unfold start_with_room
      rw [if_neg (by simp [hE])]
      show (match resolveRooms st.rooms args with
            | Except.error f => Except.error f
            | Except.ok (Sum.inl emsg) => Except.ok (st, ([] : List Rpc), some emsg)
            | Except.ok (Sum.inr ids) =>
              Except.ok ({ st with edge_state := some e },
                ([] : List Rpc) ++ [getPropsModeRpc,
                 ⟨"set_mode_withroom",
                  Payload.plist (e.map Arg.i ++
                    [Arg.i 1, Arg.i 0, Arg.i (ids.length : Int)] ++ ids.map Arg.s)⟩],
                none)) = _
      rw [hres]
    · intro k hk
      exact strHas_unknownRoomMsg_key _ _ _ _ hk
    · intro n hn
      apply strHas_unknownRoomMsg_val
      apply strHas_joinComma
      exact List.mem_filterMap.mpr ⟨some n, hn, rfl⟩
  · intro hne hall
    have hE : st.rooms.isEmpty = false := List.isEmpty_eq_false.mpr hne
    unfold start_with_room
    rw [if_neg (by simp [hE])]
    show (match resolveRooms st.rooms args with
          | Except.error f => Except.error f
          | Except.ok (Sum.inl emsg) => Except.ok (st, ([] : List Rpc), some emsg)
          | Except.ok (Sum.inr ids) =>
            Except.ok ({ st with edge_state := some e },
              ([] : List Rpc) ++ [getPropsModeRpc,
               ⟨"set_mode_withroom",
                Payload.plist (e.map Arg.i ++
                  [Arg.i 1, Arg.i 0, Arg.i (ids.length : Int)] ++ ids.map Arg.s)⟩],
              none)) = _
    rw [resolveRooms_all st.rooms args hall]
    rfl
  · intro rpcs rms hemp hget hall
    have hE : st.rooms.isEmpty = true := by simp [hemp]
    unfold start_with_room
    rw [if_pos hE, hemp, hget]
    show (match resolveRooms rms args with
          | Except.error f => Except.error f
          | Except.ok (Sum.inl emsg) => Except.ok ({ st with rooms := rms }, rpcs, some emsg)
          | Except.ok (Sum.inr ids) =>
            Except.ok ({ st with rooms := rms, edge_state := some e },
              rpcs ++ [getPropsModeRpc,
               ⟨"set_mode_withroom",
                Payload.plist (e.map Arg.i ++
                  [Arg.i 1, Arg.i 0, Arg.i (ids.length : Int)] ++ ids.map Arg.s)⟩],
              none)) = _
    rw [resolveRooms_all rms args hall]

/-- Witness for C7 at the table `{11: ami, 13: cuisine}`: the identifier
"kitchen" is unresolvable and returns the descriptive string with no RPC;
`["ami", "13"]` resolves to `["11", "13"]` and is sent after the edge
prefix; and with an empty cache the table is derived from a qualifying fake
schedule before resolving. -/
theorem C7_start_with_room_witness :
    (([("11", some ("ami")), ("13", some ("cuisine"))] : List (String × Option String)) ≠ [] ∧
      (∀ v ∈ ([("11", some ("ami")), ("13", some ("cuisine"))] :
        List (String × Option String)).map Prod.snd, v.isSome = true) ∧
      (∃ r ∈ ["kitchen"],
        resolvableB [("11", some ("ami")), ("13", some ("cuisine"))] r = false) ∧
      ∃ msg, start_with_room ⟨none, [("11", some ("ami")), ("13", some ("cuisine"))]⟩
          ["kitchen"] [] [] [0] =
          Except.ok (⟨none, [("11", some ("ami")), ("13", some ("cuisine"))]⟩, [], some msg) ∧
        (∀ k ∈ ([("11", some ("ami")), ("13", some ("cuisine"))] :
          List (String × Option String)).map Prod.fst, strHas msg k = true) ∧
        (∀ n, some n ∈ ([("11", some ("ami")), ("13", some ("cuisine"))] :
          List (String × Option String)).map Prod.snd → strHas msg n = true)) ∧
    (start_with_room ⟨none, [("11", some ("ami")), ("13", some ("cuisine"))]⟩
        ["ami", "13"] [] [] [0] =
      Except.ok (⟨some [0], [("11", some ("ami")), ("13", some ("cuisine"))]⟩,
        [getPropsModeRpc,
         ⟨"set_mode_withroom",
          Payload.plist [Arg.i 0, Arg.i 1, Arg.i 0, Arg.i 2, Arg.s ("11"), Arg.s ("13")]⟩],
        none)) ∧
    (start_with_room initSession ["ami", "13"] []
        ["1_0_32_0_0_0_1_1_11_0_1594139992_2_11_ami_13_cuisine"] [0] =
      Except.ok (⟨some [0], [("11", some ("ami")), ("13", some ("cuisine"))]⟩,
        [getOrdertimeRpc, getPropsModeRpc,
         ⟨"set_mode_withroom",
          Payload.plist [Arg.i 0, Arg.i 1, Arg.i 0, Arg.i 2, Arg.s ("11"), Arg.s ("13")]⟩],
        none)) := by
  refine ⟨⟨by decide, by decide, by decide, ?_⟩, ?_, ?_⟩
  · exact (C7_start_with_room ⟨none, [("11", some ("ami")), ("13", some ("cuisine"))]⟩
      ["kitchen"] [] [] [0]).1 (by decide) (by decide) (by decide)
  · exact (C7_start_with_room ⟨none, [("11", some ("ami")), ("13", some ("cuisine"))]⟩
      ["ami", "13"] [] [] [0]).2.1 (by decide) (by decide)
  · exact (C7_start_with_room initSession ["ami", "13"] []
      ["1_0_32_0_0_0_1_1_11_0_1594139992_2_11_ami_13_cuisine"] [0]).2.2
      [getOrdertimeRpc] [("11", some ("ami")), ("13", some ("cuisine"))] rfl rfl
      (by decide)

theorem foldl_min_le_init (l : List Int) (a : Int) : l.foldl min a ≤ a := by
  induction l generalizing a with
  | nil => simp
  | cons b bs ih =>
    rw [List.foldl_cons]
    exact le_trans (ih (min a b)) (min_le_left a b)

theorem foldl_min_mem (xs : List Int) (x : Int) : xs.foldl min x ∈ x :: xs := by
  induction xs generalizing x with
  | nil => simp
  | cons y ys ih =>
    rw [List.foldl_cons]
    rcases List.mem_cons.mp (ih (min x y)) with h | h
    · rcases min_choice x y with hm | hm
      · rw [h, hm]
        exact List.mem_cons_self _ _
      · rw [h, hm]
        exact List.mem_cons_of_mem _ (List.mem_cons_self _ _)
    · exact List.mem_cons_of_mem _ (List.mem_cons_of_mem _ h)

theorem foldl_min_le (xs : List Int) (x y : Int) (hy : y ∈ x :: xs) :
    xs.foldl min x ≤ y := by
  induction xs generalizing x with
  | nil =>
    rw [List.foldl_nil]
    rcases List.mem_cons.mp hy with h | h
    · exact le_of_eq h.symm
    · simp at h
  | cons z zs ih =>
    rw [List.foldl_cons]
    rcases List.mem_cons.mp hy with h | h
    · rw [h]
      exact le_trans (foldl_min_le_init zs (min x z)) (min_le_left x z)
    · rcases List.mem_cons.mp h with h2 | h2
      · rw [h2]
        exact le_trans (foldl_min_le_init zs (min x z)) (min_le_right x z)
      · exact ih (min x z) (List.mem_cons_of_mem _ h2)

theorem le_foldl_max_init (l : List Int) (a : Int) : a ≤ l.foldl max a := by
  induction l generalizing a with
  | nil => simp
  | cons b bs ih =>
    rw [List.foldl_cons]
    exact le_trans (le_max_left a b) (ih (max a b))

theorem foldl_max_mem (xs : List Int) (x : Int) : xs.foldl max x ∈ x :: xs := by
  induction xs generalizing x with
  | nil => simp
  | cons y ys ih =>
    rw [List.foldl_cons]
    rcases List.mem_cons.mp (ih (max x y)) with h | h
    · rcases max_choice x y with hm | hm
      · rw [h, hm]
        exact List.mem_cons_self _ _
      · rw [h, hm]
        exact List.mem_cons_of_mem _ (List.mem_cons_self _ _)
    · exact List.mem_cons_of_mem _ (List.mem_cons_of_mem _ h)

theorem le_foldl_max (xs : List Int) (x y : Int) (hy : y ∈ x :: xs) :
    y ≤ xs.foldl max x := by
  induction xs generalizing x with
  | nil =>
    rw [List.foldl_nil]
    rcases List.mem_cons.mp hy with h | h
    · exact le_of_eq h
    · simp at h
  | cons z zs ih =>
    rw [List.foldl_cons]
    rcases List.mem_cons.mp hy with h | h
    · rw [h]
      exact le_trans (le_max_left x z) (le_foldl_max_init zs (max x z))
    · rcases List.mem_cons.mp h with h2 | h2
      · rw [h2]
        exact le_trans (le_max_right x z) (le_foldl_max_init zs (max x z))
      · exact ih (max x z) (List.mem_cons_of_mem _ h2)

theorem pymin_isLeast (f : ViomiPositionPoint → Int) (p0 : ViomiPositionPoint)
    (ps2 : List ViomiPositionPoint) :
    IsLeast {v | ∃ q ∈ p0 :: ps2, v = f q} ((pymin ((p0 :: ps2).map f)).getD 0) := by
  constructor
  · rw [show (pymin ((p0 :: ps2).map f)).getD 0 = (ps2.map f).foldl min (f p0) from rfl]
    rcases List.mem_cons.mp (foldl_min_mem (ps2.map f) (f p0)) with h | h
    · exact ⟨p0, List.mem_cons_self _ _, h⟩
    · obtain ⟨q, hq, he⟩ := List.mem_map.mp h
      exact ⟨q, List.mem_cons_of_mem _ hq, he.symm⟩
  · rintro v ⟨q, hq, rfl⟩
    rw [show (pymin ((p0 :: ps2).map f)).getD 0 = (ps2.map f).foldl min (f p0) from rfl]
    apply foldl_min_le
    rcases List.mem_cons.mp hq with h | h
    · rw [h]
      exact List.mem_cons_self _ _
    · exact List.mem_cons_of_mem _ (List.mem_map_of_mem f h)

theorem pymax_isGreatest (f : ViomiPositionPoint → Int) (p0 : ViomiPositionPoint)
    (ps2 : List ViomiPositionPoint) :
    IsGreatest {v | ∃ q ∈ p0 :: ps2, v = f q} ((pymax ((p0 :: ps2).map f)).getD 0) := by
  constructor
  · rw [show (pymax ((p0 :: ps2).map f)).getD 0 = (ps2.map f).foldl max (f p0) from rfl]
    rcases List.mem_cons.mp (foldl_max_mem (ps2.map f) (f p0)) with h | h
    · exact ⟨p0, List.mem_cons_self _ _, h⟩
    · obtain ⟨q, hq, he⟩ := List.mem_map.mp h
      exact ⟨q, List.mem_cons_of_mem _ hq, he.symm⟩
  · rintro v ⟨q, hq, rfl⟩
    rw [show (pymax ((p0 :: ps2).map f)).getD 0 = (ps2.map f).foldl max (f p0) from rfl]
    apply le_foldl_max
    rcases List.mem_cons.mp hq with h | h
    · rw [h]
      exact List.mem_cons_self _ _
    · exact List.mem_cons_of_mem _ (List.mem_map_of_mem f h)

theorem memEq_false_forall {p : ViomiPositionPoint} {l : List ViomiPositionPoint}
    (h : memEq p l = false) : ∀ e ∈ l, pointEq p e = false := by
  intro e he
  have h2 := List.any_eq_false.mp h e he
  simpa using h2

theorem step_first (st : RunSt) (p : ViomiPositionPoint) (h : st.hist = []) :
    step st p = { st with offX := pos_x p, offY := pos_y p,
                          hist := st.hist ++ [p] } := by
  unfold step
  rw [if_neg (by simp [memEq, h]), if_pos (by simp [h])]

theorem step_fresh (st : RunSt) (p : ViomiPositionPoint)
    (hne : st.hist ≠ []) (hm : memEq p st.hist = false) :
    ∃ seg, step st p =
      { st with hist := st.hist ++ [p],
                canvas := st.canvas ++ [seg],
                saves := st.saves ++
                  [mkSave st.offX st.offY (st.hist ++ [p]) (st.canvas ++ [seg])] } := by
  obtain ⟨lp, hlp⟩ := Option.isSome_iff_exists.mp (List.getLast?_isSome.mpr hne)
  have hpe : pointEq p lp = false :=
    memEq_false_forall hm lp (List.mem_of_getLast?_eq_some hlp)
  refine ⟨((image_pos_x lp st.offX img_center, image_pos_y lp st.offY img_center),
           (image_pos_x p st.offX img_center, image_pos_y p st.offY img_center)), ?_⟩
  unfold step
  rw [if_neg (by simp [hm]), if_neg (by simp [List.isEmpty_eq_false.mpr hne]), hlp]
  simp only [hpe, Bool.false_eq_true, if_false]

theorem processPositions_fresh (l : List ViomiPositionPoint) :
    ∀ st : RunSt, st.hist ≠ [] →
    (∀ q ∈ l, memEq q st.hist = false) →
    l.Pairwise (fun a b => pointEq b a = false) →
    (processPositions st l).offX = st.offX ∧
    (processPositions st l).offY = st.offY ∧
    (processPositions st l).hist = st.hist ++ l ∧
    (l ≠ [] → (processPositions st l).saves.getLast? =
      some (mkSave st.offX st.offY (st.hist ++ l) ((processPositions st l).canvas))) := by
  induction l with
  | nil =>
    intro st hne hf hp
    exact ⟨rfl, rfl, by simp [processPositions], fun h => absurd rfl h⟩
  | cons q l2 ih =>
    intro st hne hf hp
    obtain ⟨seg, hstep⟩ := step_fresh st q hne (hf q (List.mem_cons_self q l2))
    have h1 : (step st q).hist = st.hist ++ [q] := by rw [hstep]
    have hoX : (step st q).offX = st.offX := by rw [hstep]
    have hoY : (step st q).offY = st.offY := by rw [hstep]
    have hne1 : (step st q).hist ≠ [] := by
      rw [h1]
      simp
    have hf2 : ∀ r ∈ l2, memEq r (step st q).hist = false := by
      intro r hr
      rw [h1]
      simp only [memEq, List.any_append, List.any_cons, List.any_nil]
      rw [show st.hist.any (fun e => pointEq r e) = memEq r st.hist from rfl,
        hf r (List.mem_cons_of_mem q hr), (List.pairwise_cons.mp hp).1 r hr]
      rfl
    obtain ⟨i1, i2, i3, i5⟩ :=
      ih (step st q) hne1 hf2 (List.pairwise_cons.mp hp).2
    have hProc : processPositions st (q :: l2) = processPositions (step st q) l2 := rfl
    refine ⟨by rw [hProc, i1, hoX], by rw [hProc, i2, hoY], ?_, ?_⟩
    · rw [hProc, i3, h1, List.append_assoc]
      rfl
    · intro _
      cases l2 with
      | nil =>
        rw [show processPositions st [q] = step st q from rfl, hstep]
        simp only [List.getLast?_concat]
      | cons r l3 =>
        rw [hProc]
        rw [i5 (by simp), hoX, hoY, h1, List.append_assoc]
        rfl

/-- C9: in `follow_position`, with all fetched points pairwise distinct
(by the x/y/heading equality), every point is retained, and the last image
written to the output path is the vertical flip of the crop of the drawn
canvas to the rectangle `cropRect` recomputed over the whole retained
history; the crop rectangle's pre-margin bounding box is exactly the
min/max over all retained points of the transformed image coordinates
(position scaled by `plan_multiplicator`, minus the first point's offset,
plus the image center): each side, with the fixed margin removed, is the
least (resp. greatest) transformed coordinate. -/
theorem C9_crop_bounding_box (raw : List Int) (p0 : ViomiPositionPoint)
    (ps2 : List ViomiPositionPoint)
    (hps : get_positions fpMult raw = p0 :: ps2)
    (hne2 : ps2 ≠ [])
    (hpw : (p0 :: ps2).Pairwise (fun a b => pointEq b a = false)) :
    ∃ st, follow_position (Poll.ok raw :: Poll.ok [] :: Poll.ok [] :: Poll.ok [] ::
        Poll.ok [] :: Poll.ok [] :: []) = RunResult.done [] st ∧
      st.hist = p0 :: ps2 ∧
      st.saves.getLast? = some (ImgExpr.flipTB (ImgExpr.crop (ImgExpr.canvas st.canvas)
        (cropRect (pos_x p0) (pos_y p0) (p0 :: ps2)))) ∧
      IsLeast {v | ∃ q ∈ p0 :: ps2, v = image_pos_x q (pos_x p0) img_center}
        ((cropRect (pos_x p0) (pos_y p0) (p0 :: ps2)).minX + image_margin) ∧
      IsGreatest {v | ∃ q ∈ p0 :: ps2, v = image_pos_x q (pos_x p0) img_center}
        ((cropRect (pos_x p0) (pos_y p0) (p0 :: ps2)).maxX - image_margin) ∧
      IsLeast {v | ∃ q ∈ p0 :: ps2, v = image_pos_y q (pos_y p0) img_center}
        ((cropRect (pos_x p0) (pos_y p0) (p0 :: ps2)).minY + image_margin) ∧
      IsGreatest {v | ∃ q ∈ p0 :: ps2, v = image_pos_y q (pos_y p0) img_center}
        ((cropRect (pos_x p0) (pos_y p0) (p0 :: ps2)).maxY - image_margin) := by
  obtain ⟨st, hrun, hoX, hoY, hhist, hcanvas, hsaves⟩ :=
    follow_position_five_empty raw [] (by rw [hps]; simp)
  have hstep0 : step initSt p0 =
      { initSt with offX := pos_x p0, offY := pos_y p0, hist := [p0] } :=
    step_first initSt p0 rfl
  have hne1 : (step initSt p0).hist ≠ [] := by
    rw [hstep0]
    simp
  have hf : ∀ r ∈ ps2, memEq r (step initSt p0).hist = false := by
    intro r hr
    rw [hstep0]
    show (pointEq r p0 || false) = false
    rw [(List.pairwise_cons.mp hpw).1 r hr]
    rfl
  obtain ⟨i1, i2, i3, i5⟩ :=
    processPositions_fresh ps2 (step initSt p0) hne1 hf (List.pairwise_cons.mp hpw).2
  have hProc : processPositions initSt (p0 :: ps2) =
      processPositions (step initSt p0) ps2 := rfl
  refine ⟨st, hrun, ?_, ?_, ?_, ?_, ?_, ?_⟩
  · rw [hhist, hps, hProc, i3, hstep0]
    rfl
  · rw [hsaves, hps, hProc, i5 hne2,
      show (step initSt p0).offX = pos_x p0 from by rw [hstep0],
      show (step initSt p0).offY = pos_y p0 from by rw [hstep0],
      show (step initSt p0).hist = [p0] from by rw [hstep0],
      hcanvas, hps, hProc]
    rfl
  · have harith : (cropRect (pos_x p0) (pos_y p0) (p0 :: ps2)).minX + image_margin =
        (pymin ((p0 :: ps2).map (fun q => image_pos_x q (pos_x p0) img_center))).getD 0 := by
      show (pymin ((p0 :: ps2).map (fun q => image_pos_x q (pos_x p0) img_center))).getD 0
        - image_margin + image_margin = _
      omega
    rw [harith]
    exact pymin_isLeast _ p0 ps2
  · have harith : (cropRect (pos_x p0) (pos_y p0) (p0 :: ps2)).maxX - image_margin =
        (pymax ((p0 :: ps2).map (fun q => image_pos_x q (pos_x p0) img_center))).getD 0 := by
      show (pymax ((p0 :: ps2).map (fun q => image_pos_x q (pos_x p0) img_center))).getD 0
        + image_margin - image_margin = _
      omega
    rw [harith]
    exact pymax_isGreatest _ p0 ps2
  · have harith : (cropRect (pos_x p0) (pos_y p0) (p0 :: ps2)).minY + image_margin =
        (pymin ((p0 :: ps2).map (fun q => image_pos_y q (pos_y p0) img_center))).getD 0 := by
      show (pymin ((p0 :: ps2).map (fun q => image_pos_y q (pos_y p0) img_center))).getD 0
        - image_margin + image_margin = _
      omega
    rw [harith]
    exact pymin_isLeast _ p0 ps2
  · have harith : (cropRect (pos_x p0) (pos_y p0) (p0 :: ps2)).maxY - image_margin =
        (pymax ((p0 :: ps2).map (fun q => image_pos_y q (pos_y p0) img_center))).getD 0 := by
      show (pymax ((p0 :: ps2).map (fun q => image_pos_y q (pos_y p0) img_center))).getD 0
        + image_margin - image_margin = _
      omega
    rw [harith]
    exact pymax_isGreatest _ p0 ps2

/-- Witness for C9 at three distinct collinear points (0,0), (1,1), (2,2)
with heading 0 and fresh timestamps. -/
theorem C9_crop_bounding_box_witness :
    get_positions fpMult [0, 0, 0, 0, 1, 1, 0, 1, 2, 2, 0, 2] =
      ⟨0, 0, 0, 0, 1000⟩ :: [⟨1, 1, 0, 1, 1000⟩, ⟨2, 2, 0, 2, 1000⟩] ∧
    ([⟨1, 1, 0, 1, 1000⟩, ⟨2, 2, 0, 2, 1000⟩] : List ViomiPositionPoint) ≠ [] ∧
    (⟨0, 0, 0, 0, 1000⟩ :: [⟨1, 1, 0, 1, 1000⟩, ⟨2, 2, 0, 2, 1000⟩] :
      List ViomiPositionPoint).Pairwise (fun a b => pointEq b a = false) ∧
    (∃ st, follow_position (Poll.ok [0, 0, 0, 0, 1, 1, 0, 1, 2, 2, 0, 2] :: Poll.ok [] ::
        Poll.ok [] :: Poll.ok [] :: Poll.ok [] :: Poll.ok [] :: []) =
        RunResult.done [] st ∧
      st.hist = ⟨0, 0, 0, 0, 1000⟩ :: [⟨1, 1, 0, 1, 1000⟩, ⟨2, 2, 0, 2, 1000⟩] ∧
      st.saves.getLast? = some (ImgExpr.flipTB (ImgExpr.crop (ImgExpr.canvas st.canvas)
        (cropRect (pos_x ⟨0, 0, 0, 0, 1000⟩) (pos_y ⟨0, 0, 0, 0, 1000⟩)
          (⟨0, 0, 0, 0, 1000⟩ :: [⟨1, 1, 0, 1, 1000⟩, ⟨2, 2, 0, 2, 1000⟩])))) ∧
      IsLeast {v | ∃ q ∈ (⟨0, 0, 0, 0, 1000⟩ ::
          [⟨1, 1, 0, 1, 1000⟩, ⟨2, 2, 0, 2, 1000⟩] : List ViomiPositionPoint),
          v = image_pos_x q (pos_x ⟨0, 0, 0, 0, 1000⟩) img_center}
        ((cropRect (pos_x ⟨0, 0, 0, 0, 1000⟩) (pos_y ⟨0, 0, 0, 0, 1000⟩)
          (⟨0, 0, 0, 0, 1000⟩ :: [⟨1, 1, 0, 1, 1000⟩, ⟨2, 2, 0, 2, 1000⟩])).minX +
          image_margin) ∧
      IsGreatest {v | ∃ q ∈ (⟨0, 0, 0, 0, 1000⟩ ::
          [⟨1, 1, 0, 1, 1000⟩, ⟨2, 2, 0, 2, 1000⟩] : List ViomiPositionPoint),
          v = image_pos_x q (pos_x ⟨0, 0, 0, 0, 1000⟩) img_center}
        ((cropRect (pos_x ⟨0, 0, 0, 0, 1000⟩) (pos_y ⟨0, 0, 0, 0, 1000⟩)
          (⟨0, 0, 0, 0, 1000⟩ :: [⟨1, 1, 0, 1, 1000⟩, ⟨2, 2, 0, 2, 1000⟩])).maxX -
          image_margin) ∧
      IsLeast {v | ∃ q ∈ (⟨0, 0, 0, 0, 1000⟩ ::
          [⟨1, 1, 0, 1, 1000⟩, ⟨2, 2, 0, 2, 1000⟩] : List ViomiPositionPoint),
          v = image_pos_y q (pos_y ⟨0, 0, 0, 0, 1000⟩) img_center}
        ((cropRect (pos_x ⟨0, 0, 0, 0, 1000⟩) (pos_y ⟨0, 0, 0, 0, 1000⟩)
          (⟨0, 0, 0, 0, 1000⟩ :: [⟨1, 1, 0, 1, 1000⟩, ⟨2, 2, 0, 2, 1000⟩])).minY +
          image_margin) ∧
      IsGreatest {v | ∃ q ∈ (⟨0, 0, 0, 0, 1000⟩ ::
          [⟨1, 1, 0, 1, 1000⟩, ⟨2, 2, 0, 2, 1000⟩] : List ViomiPositionPoint),
          v = image_pos_y q (pos_y ⟨0, 0, 0, 0, 1000⟩) img_center}
        ((cropRect (pos_x ⟨0, 0, 0, 0, 1000⟩) (pos_y ⟨0, 0, 0, 0, 1000⟩)
          (⟨0, 0, 0, 0, 1000⟩ :: [⟨1, 1, 0, 1, 1000⟩, ⟨2, 2, 0, 2, 1000⟩])).maxY -
          image_margin)) :=
  ⟨rfl, by decide, by decide,
   C9_crop_bounding_box [0, 0, 0, 0, 1, 1, 0, 1, 2, 2, 0, 2]
     ⟨0, 0, 0, 0, 1000⟩ [⟨1, 1, 0, 1, 1000⟩, ⟨2, 2, 0, 2, 1000⟩]
     rfl (by decide) (by decide)⟩

end Viomi
